import Mathlib

/-!
Verification of the APA citation parser (`src/parser.py`) against its
natural-language specification.

The embedding works over `List Char` for the string scanning, and models each
Python `re` pattern used by the source as a dedicated matching function with
the exact semantics (leftmost search, greedy/lazy quantifier order) of the
original pattern.  Python dictionaries are modelled as ordered association
lists (`Rec`), so that presence and absence of record fields is observable.
-/

/-! ## Character classes (Python `re` classes, ASCII range)

`\s` is `[ \t\n\r\f\v]`, `\w` is `[A-Za-z0-9_]`, `\d` is `[0-9]`,
`[A-Z]` the uppercase range.  (Python's classes are Unicode-aware; the
citations this program targets are ASCII, and the embedding fixes the ASCII
reading throughout.) -/

def isSpace (c : Char) : Bool :=
  c = ' ' || c = '\t' || c = '\n' || c = '\r' || c = '\x0b' || c = '\x0c'

def isWordChar (c : Char) : Bool := c.isAlphanum || c = '_'

/-- class `[\w-]` (author last-name tokens) -/
def isWordDash (c : Char) : Bool := isWordChar c || c = '-'

/-- class `[\w\s]` (journal-name runs) -/
def isWS (c : Char) : Bool := isWordChar c || isSpace c

def isDigitC (c : Char) : Bool := c.isDigit

def isUpperAZ (c : Char) : Bool := c.isUpper

/-- class `[\w\d\.\-\/]` (DOI tail) -/
def isDoiChar (c : Char) : Bool := isWordChar c || c = '.' || c = '-' || c = '/'

/-- class `[-–]` (ASCII hyphen or en-dash, as used by the classifier cues) -/
def isDash (c : Char) : Bool := c = '-' || c = '–'

/-! ## Python string helpers -/

/-- Python `str.strip()` (no arguments: strips whitespace on both ends). -/
def pyStrip (l : List Char) : List Char :=
  ((l.dropWhile isSpace).reverse.dropWhile isSpace).reverse

/-- Python `str.rstrip(cs)`: drop trailing characters belonging to `cs`. -/
def pyRstrip (cs : List Char) (l : List Char) : List Char :=
  (l.reverse.dropWhile (fun c => cs.contains c)).reverse

/-- Substring containment test (used to state claims about literal cues). -/
def containsList (pat : List Char) : List Char → Bool
  | [] => pat.isPrefixOf []
  | c :: cs => pat.isPrefixOf (c :: cs) || containsList pat cs

/-- Python `str.split(sep)` with non-empty separator: cut at each
leftmost, non-overlapping occurrence of `sep`.  (The recursion is driven by
a fuel counter so that it stays structural; every step either consumes the
head character or a whole non-empty separator, so `l.length + 1` fuel always
suffices and the fuel-exhausted arm is unreachable.) -/
def splitOnSep (sep : List Char) : Nat → List Char → List Char → List (List Char)
  | 0, acc, l => [acc.reverse ++ l]
  | _ + 1, acc, [] => [acc.reverse]
  | fuel + 1, acc, c :: cs =>
    if sep.isPrefixOf (c :: cs) then
      acc.reverse :: splitOnSep sep fuel [] (cs.drop (sep.length - 1))
    else
      splitOnSep sep fuel (c :: acc) cs

/-- Python `str.split(sep)` (all parts, in order). -/
def pySplit (sep : List Char) (l : List Char) : List (List Char) :=
  splitOnSep sep (l.length + 1) [] l

/-- Python `str.rsplit('.', 1)`: split on the last period, if any. -/
def pyRsplitDot (l : List Char) : List (List Char) :=
  let tailRev := l.reverse.takeWhile (fun c => c ≠ '.')
  if tailRev.length = l.length then [l]
  else [(l.reverse.drop (tailRev.length + 1)).reverse, tailRev.reverse]

/-! ## Data model

Python returns `dict`s; the book-chapter extractor's dict has a different key
set than the other extractors', so records are ordered association lists. -/

structure Author where
  last_name : String
  first_name : String
deriving DecidableEq, Repr

inductive FieldVal where
  | s (v : String)
  | authorsV (v : List Author)
deriving DecidableEq, Repr

def Rec : Type := List (String × FieldVal)

instance : DecidableEq Rec := inferInstanceAs (DecidableEq (List (String × FieldVal)))

/-- Python `d[k] = v` on a dict: replace the value if the key is present
(keeping its position), append otherwise. -/
def Rec.set : Rec → String → FieldVal → Rec
  | [], k, v => [(k, v)]
  | (k', v') :: r, k, v =>
    if k' = k then (k, v) :: r else (k', v') :: Rec.set r k v

/-- Python `d[k]` / key lookup. -/
def Rec.get : Rec → String → Option FieldVal
  | [], _ => none
  | (k', v') :: r, k => if k' = k then some v' else Rec.get r k

/-- String-valued lookup with default `""`. -/
def Rec.getS (r : Rec) (k : String) : String :=
  match r.get k with
  | some (.s v) => v
  | _ => ""

def Rec.keys (r : Rec) : List String := r.map Prod.fst

/-- Python `d.update(u)`: assign every binding of `u` into `d`, in order. -/
def Rec.update (r : Rec) (u : Rec) : Rec :=
  u.foldl (fun acc kv => acc.set kv.1 kv.2) r

/-- Make a `String` from scanned characters. -/
def mkS (l : List Char) : String := ⟨l⟩

/-! ## Generic leftmost search

`reSearch m l` runs the position matcher `m` at every suffix of `l`, left to
right, returning the first (leftmost) success — the semantics of
`re.search`. -/

def reSearch (m : List Char → Option α) : List Char → Option α
  | [] => m []
  | c :: cs =>
    match m (c :: cs) with
    | some r => some r
    | none => reSearch m cs


/-! ## Author sub-parser — `parse_authors` (parser.py lines 6–17)

Pattern: `([\w-]+(?:\s+[\w-]+)*),\s*([A-Z](?:\.\s*[A-Z])*\.?)`, via
`re.findall` (repeated leftmost, non-overlapping matches). -/

/-- `(?:\.\s*[A-Z])*` — greedy star; each iteration consumes `.`, optional
whitespace and one uppercase letter.  Nothing after the initials group can
fail, so the star never backtracks.  Returns (consumed, rest).  (Each
iteration consumes at least two characters, so `l.length + 1` fuel always
suffices; `initTail_snd_le` below records the consumption bound.) -/
def initTailF : Nat → List Char → List Char × List Char
  | 0, l => ([], l)
  | fuel + 1, l =>
    match l with
    | '.' :: r =>
      (match r.dropWhile isSpace with
       | c :: r' =>
         if isUpperAZ c then
           let p := initTailF fuel r'
           ('.' :: (r.takeWhile isSpace ++ c :: p.1), p.2)
         else ([], '.' :: r)
       | [] => ([], '.' :: r))
    | _ => ([], l)

def initTail (l : List Char) : List Char × List Char := initTailF (l.length + 1) l


/-- The last-name group `([\w-]+(?:\s+[\w-]+)*)` at the current position,
requiring the following character to be read next by the caller.  The group
is a run over word/hyphen/whitespace characters that starts and ends on a
word/hyphen character; since a `,` must directly follow the final token and
the characters released by backtracking the greedy star are never commas,
the star cannot usefully backtrack.  Returns (capture, rest). -/
def lastNameAt (l : List Char) : Option (List Char × List Char) :=
  match l with
  | [] => none
  | c0 :: _ =>
    if isWordDash c0 then
      let run := l.takeWhile (fun c => isWordDash c || isSpace c)
      let rest := l.dropWhile (fun c => isWordDash c || isSpace c)
      match run.getLast? with
      | some cl => if isWordDash cl then some (run, rest) else none
      | none => none
    else none


/-- The initials group `[A-Z](?:\.\s*[A-Z])*\.?` at the current position.
Returns (capture, rest). -/
def initialsAt (l : List Char) : Option (List Char × List Char) :=
  match l with
  | [] => none
  | c :: r =>
    if isUpperAZ c then
      let p := initTail r
      match p.2 with
      | '.' :: r6 => some (c :: (p.1 ++ ['.']), r6)
      | r5 => some (c :: p.1, r5)
    else none


/-- One attempt of the whole author pattern at the current position.
Returns ((last-name capture, initials capture), rest after the match). -/
def tryAuthorAt (l : List Char) : Option ((List Char × List Char) × List Char) :=
  match lastNameAt l with
  | some (run, ',' :: r2) =>
    match initialsAt (r2.dropWhile isSpace) with
    | some (ini, r5) => some ((run, ini), r5)
    | none => none
  | _ => none


/-- `re.findall` of the author pattern: scan left to right, matches are
non-overlapping, non-matching characters are skipped.  (Each step consumes
at least one character — `tryAuthorAt_rest_lt` above — so `l.length + 1`
fuel always suffices and the fuel-exhausted arm is unreachable.) -/
def findAuthorsF : Nat → List Char → List (List Char × List Char)
  | 0, _ => []
  | _ + 1, [] => []
  | fuel + 1, c :: cs =>
    match tryAuthorAt (c :: cs) with
    | some (caps, rest) => caps :: findAuthorsF fuel rest
    | none => findAuthorsF fuel cs

def findAuthors (l : List Char) : List (List Char × List Char) :=
  findAuthorsF (l.length + 1) l

/-- parser.py lines 6–17. -/
def parse_authors (authors_string : String) : List Author :=
  (findAuthors authors_string.data).map
    (fun p => { last_name := mkS (pyStrip p.1), first_name := mkS (pyStrip p.2) })

/-! ## Shared pattern pieces -/

/-- `\d+` — greedy digit run, at least one digit.  Deterministic whenever the
following pattern element cannot consume a digit. -/
def digitsTok (l : List Char) : Option (List Char × List Char) :=
  let d := l.takeWhile isDigitC
  if d.isEmpty then none else some (d, l.dropWhile isDigitC)

/-- `(\d+(?:-\d+)?)` — digits optionally followed by an ASCII hyphen and a
second digit run; the greedy optional part is kept only when a digit follows
the hyphen. -/
def pagesTok (l : List Char) : Option (List Char × List Char) :=
  match digitsTok l with
  | none => none
  | some (d1, r1) =>
    match r1 with
    | '-' :: r2 =>
      match digitsTok r2 with
      | some (d2, r3) => some (d1 ++ '-' :: d2, r3)
      | none => some (d1, r1)
    | _ => some (d1, r1)

/-- `\s*\((\d{4})\)` at the current position: maximal whitespace, then a
parenthesised group of exactly four digits.  Returns (year, rest after `)`).
(`(` is not a whitespace character, so the greedy `\s*` is deterministic.) -/
def yearParen (l : List Char) : Option (List Char × List Char) :=
  match l.dropWhile isSpace with
  | '(' :: r1 =>
    let ds := r1.take 4
    if ds.length = 4 && ds.all isDigitC then
      match r1.drop 4 with
      | ')' :: r2 => some (ds, r2)
      | _ => none
    else none
  | _ => none

/-- `re.match(r'(.*?)\s*\((\d{4})\)', s)` — the author/year step shared by
the extractors (e.g. parser.py line 69).  The lazy `(.*?)` tries the shortest
prefix first and cannot cross a newline.  Returns (group 1, year, rest). -/
def authorYearAux : List Char → List Char → Option (List Char × List Char × List Char)
  | acc, l =>
    match yearParen l with
    | some (y, rest) => some (acc.reverse, y, rest)
    | none =>
      match l with
      | [] => none
      | c :: cs => if c = '\n' then none else authorYearAux (c :: acc) cs

def authorYearMatch (l : List Char) : Option (List Char × List Char × List Char) :=
  authorYearAux [] l

/-- Greedy `\s*` followed by an arbitrary continuation: try the maximal
whitespace run first and release one whitespace character back to the
continuation at a time on failure. -/
def wsAttempts (try1 : List Char → Option α) : List Char → List Char → Option α
  | wrev, region =>
    match try1 region with
    | some res => some res
    | none =>
      match wrev with
      | [] => none
      | c :: wrev2 => wsAttempts try1 wrev2 (c :: region)

def greedyWs (try1 : List Char → Option α) (l : List Char) : Option α :=
  wsAttempts try1 (l.takeWhile isSpace).reverse (l.dropWhile isSpace)

/-- Lazy `(.*?)\.\s` — shortest prefix (`.` cannot match a newline) followed
by a period and one whitespace character; returns the group. -/
def lazyDotWs : List Char → List Char → Option (List Char)
  | acc, '.' :: c :: r =>
    if isSpace c then some acc.reverse
    else lazyDotWs ('.' :: acc) (c :: r)
  | acc, c :: cs => if c = '\n' then none else lazyDotWs (c :: acc) cs
  | _, [] => none

/-- `\)\.\s*(.*?)\.\s` at the current position — the title step of the
journal extractor (parser.py line 75). -/
def titleAt (l : List Char) : Option (List Char) :=
  match l with
  | ')' :: '.' :: r => greedyWs (lazyDotWs []) r
  | _ => none

/-- The DOI tail `10\.\d{4,}[\w\d\.\-\/]+`: after the literal `10.`, the
greedy digit run and the greedy class run together consume the maximal run
of word/digit/period/hyphen/slash characters, provided that run starts with
at least four digits and is at least five characters long.  The capture is
`10.` plus that whole run. -/
def doiTail (l : List Char) : Option (List Char) :=
  match l with
  | '1' :: '0' :: '.' :: r =>
    let run := r.takeWhile isDoiChar
    if 4 ≤ (r.takeWhile isDigitC).length && 5 ≤ run.length then
      some ('1' :: '0' :: '.' :: run)
    else none
  | _ => none

/-- `https?://doi\.org/(10\.\d{4,}[\w\d\.\-\/]+)` at the current position
(parser.py line 88); the two scheme spellings are mutually exclusive. -/
def doiAt (l : List Char) : Option (List Char) :=
  if ("http://doi.org/".data).isPrefixOf l then doiTail (l.drop 15)
  else if ("https://doi.org/".data).isPrefixOf l then doiTail (l.drop 16)
  else none

/-! ## Journal extractor — parser.py lines 20–93 -/

/-- `([\w\s]+),\s*(\d+)\((\d+)\),\s*(\d+(?:-\d+)?)` at the current position
(parser.py line 21).  The journal-name run `[\w\s]+` is greedy and must be
directly followed by `,`; no released character can be a comma, so there is
no backtracking.  Returns (journal name, volume, issue, pages). -/
def stdJournalAt (l : List Char) :
    Option (List Char × List Char × List Char × List Char) :=
  match l with
  | [] => none
  | c0 :: _ =>
    if isWS c0 then
      let run := l.takeWhile isWS
      match l.dropWhile isWS with
      | ',' :: r1 =>
        match digitsTok (r1.dropWhile isSpace) with
        | some (vol, '(' :: r2) =>
          match digitsTok r2 with
          | some (iss, ')' :: ',' :: r3) =>
            match pagesTok (r3.dropWhile isSpace) with
            | some (pg, _) => some (run, vol, iss, pg)
            | none => none
          | _ => none
        | _ => none
      | _ => none
    else none

/-- `([\w\s]+),\s*(\d+),\s*(\d+(?:-\d+)?)` at the current position
(parser.py line 32).  Returns (journal name, volume, pages). -/
def volJournalAt (l : List Char) :
    Option (List Char × List Char × List Char) :=
  match l with
  | [] => none
  | c0 :: _ =>
    if isWS c0 then
      let run := l.takeWhile isWS
      match l.dropWhile isWS with
      | ',' :: r1 =>
        match digitsTok (r1.dropWhile isSpace) with
        | some (vol, ',' :: r2) =>
          match pagesTok (r2.dropWhile isSpace) with
          | some (pg, _) => some (run, vol, pg)
          | none => none
        | _ => none
      | _ => none
    else none

/-- `([\w\s]+),\s*(\d+(?:-\d+)?)` at the current position (parser.py
line 43).  Returns (journal name, pages). -/
def noVolJournalAt (l : List Char) : Option (List Char × List Char) :=
  match l with
  | [] => none
  | c0 :: _ =>
    if isWS c0 then
      let run := l.takeWhile isWS
      match l.dropWhile isWS with
      | ',' :: r1 =>
        match pagesTok (r1.dropWhile isSpace) with
        | some (pg, _) => some (run, pg)
        | none => none
      | _ => none
    else none

/-- parser.py lines 20–29. -/
def parse_standard_journal_citation (citation : String) : Option Rec :=
  (reSearch stdJournalAt citation.data).map fun x =>
    [("journal_name", .s (mkS (pyStrip x.1))), ("volume", .s (mkS x.2.1)),
     ("issue", .s (mkS x.2.2.1)), ("page_range", .s (mkS x.2.2.2))]

/-- parser.py lines 31–40. -/
def parse_journal_citation_with_volume (citation : String) : Option Rec :=
  (reSearch volJournalAt citation.data).map fun x =>
    [("journal_name", .s (mkS (pyStrip x.1))), ("volume", .s (mkS x.2.1)),
     ("issue", .s ""), ("page_range", .s (mkS x.2.2))]

/-- parser.py lines 42–51. -/
def parse_journal_citation_without_volume (citation : String) : Option Rec :=
  (reSearch noVolJournalAt citation.data).map fun x =>
    [("journal_name", .s (mkS (pyStrip x.1))), ("volume", .s ""),
     ("issue", .s ""), ("page_range", .s (mkS x.2))]

/-- The shared default record of the journal extractor (parser.py
lines 54–66). -/
def journalDefaults : Rec :=
  [("source_type", .s "journal"), ("authors", .authorsV []), ("title", .s ""),
   ("year", .s ""), ("publisher", .s ""), ("volume", .s ""), ("issue", .s ""),
   ("page_range", .s ""), ("journal_name", .s ""), ("url", .s ""), ("doi", .s "")]

/-- parser.py lines 53–93. -/
def parse_journal_citation (citation : String) : Rec :=
  let result := journalDefaults
  let result :=
    match authorYearMatch citation.data with
    | some (g1, y, _) =>
      (result.set "authors" (.authorsV (parse_authors (mkS g1)))).set "year" (.s (mkS y))
    | none => result
  let result :=
    match reSearch titleAt citation.data with
    | some t => result.set "title" (.s (mkS (pyStrip t)))
    | none => result
  let journal_info :=
    (parse_standard_journal_citation citation).orElse fun _ =>
      (parse_journal_citation_with_volume citation).orElse fun _ =>
        parse_journal_citation_without_volume citation
  let result :=
    match journal_info with
    | some j => result.update j
    | none => result
  let result :=
    match reSearch doiAt citation.data with
    | some d =>
      let result := result.set "doi" (.s (mkS d))
      result.set "url" (.s ("https://doi.org/" ++ result.getS "doi"))
    | none => result
  result

/-! ## Standard book extractor — parser.py lines 95–124 -/

/-- Python `$`: end of the string, or just before a trailing newline. -/
def endDollar (l : List Char) : Bool := l.isEmpty || l = ['\n']

/-- `(?:,\s*(\d+))?\.$` — the greedy optional comma/pages part is tried
first, then the bare final period.  Returns the optional pages group. -/
def sbTail (l : List Char) : Option (Option (List Char)) :=
  (match l with
   | ',' :: r =>
     match digitsTok (r.dropWhile isSpace) with
     | some (d, '.' :: t) => if endDollar t then some (some d) else none
     | _ => none
   | _ => none).orElse fun _ =>
    match l with
    | '.' :: t => if endDollar t then some none else none
    | _ => none

/-- Lazy `(.*?)` (the publisher group) followed by `sbTail`. -/
def sbLazy2 : List Char → List Char → Option (List Char × Option (List Char))
  | acc, l =>
    match sbTail l with
    | some g3 => some (acc.reverse, g3)
    | none =>
      match l with
      | [] => none
      | c :: cs => if c = '\n' then none else sbLazy2 (c :: acc) cs

/-- Lazy `(.*?)` (the title group) followed by `\.\s*` and the publisher
part. -/
def sbLazy1 : List Char → List Char → Option (List Char × List Char × Option (List Char))
  | acc, l =>
    match (match l with
           | '.' :: r => greedyWs (sbLazy2 []) r
           | _ => none) with
    | some (g2, g3) => some (acc.reverse, g2, g3)
    | none =>
      match l with
      | [] => none
      | c :: cs => if c = '\n' then none else sbLazy1 (c :: acc) cs

/-- `\)\.\s*(.*?)\.\s*(.*?)(?:,\s*(\d+))?\.$` at the current position
(parser.py line 117).  Returns (title, publisher, optional page number). -/
def sbAt (l : List Char) : Option (List Char × List Char × Option (List Char)) :=
  match l with
  | ')' :: '.' :: r => greedyWs (sbLazy1 []) r
  | _ => none

/-- The shared default record of the book extractors (parser.py
lines 96–108, 128–140, 183–195). -/
def bookDefaults : Rec :=
  [("source_type", .s "book"), ("authors", .authorsV []), ("title", .s ""),
   ("year", .s ""), ("publisher", .s ""), ("volume", .s ""), ("issue", .s ""),
   ("page_range", .s ""), ("journal_name", .s ""), ("url", .s ""), ("doi", .s "")]

/-- parser.py lines 95–124. -/
def parse_standard_book_citation (citation : String) : Rec :=
  let result := bookDefaults
  let result :=
    match authorYearMatch citation.data with
    | some (g1, y, _) =>
      (result.set "authors" (.authorsV (parse_authors (mkS g1)))).set "year" (.s (mkS y))
    | none => result
  match reSearch sbAt citation.data with
  | some (t, p, pg) =>
    let result := (result.set "title" (.s (mkS (pyStrip t)))).set
      "publisher" (.s (mkS (pyStrip p)))
    match pg with
    | some d => result.set "page_range" (.s (mkS d))
    | none => result
  | none => result

/-! ## Edited book extractor — parser.py lines 127–179 -/

/-- `\((Ed\.?|Eds\.?)\)` at the current position: the `Ed` branch (with its
greedy optional period) is preferred over the `Eds` branch.  Returns the rest
after `)`. -/
def edParen (l : List Char) : Option (List Char) :=
  match l with
  | '(' :: 'E' :: 'd' :: r =>
    match r with
    | '.' :: ')' :: t => some t
    | ')' :: t => some t
    | 's' :: '.' :: ')' :: t => some t
    | 's' :: ')' :: t => some t
    | _ => none
  | _ => none

/-- `\s*\((Ed\.?|Eds\.?)\)\.\s*\((\d{4})\)` at the current position.
Returns (year, rest). -/
def edYearParen (l : List Char) : Option (List Char × List Char) :=
  match edParen (l.dropWhile isSpace) with
  | some ('.' :: t) => yearParen t
  | _ => none

/-- `re.match(r'(.*?)\s*\((Ed\.?|Eds\.?)\)\.\s*\((\d{4})\)', s)` (parser.py
line 143). -/
def edAuthorYearAux : List Char → List Char → Option (List Char × List Char × List Char)
  | acc, l =>
    match edYearParen l with
    | some (y, rest) => some (acc.reverse, y, rest)
    | none =>
      match l with
      | [] => none
      | c :: cs => if c = '\n' then none else edAuthorYearAux (c :: acc) cs

def edAuthorYearMatch (l : List Char) : Option (List Char × List Char × List Char) :=
  edAuthorYearAux [] l

/-- `\(Vol\.\s*(\d+)\)` at the current position (parser.py line 152). -/
def volAt (l : List Char) : Option (List Char) :=
  match l with
  | '(' :: 'V' :: 'o' :: 'l' :: '.' :: r =>
    match digitsTok (r.dropWhile isSpace) with
    | some (d, ')' :: _) => some d
    | _ => none
  | _ => none

/-- `\s*\(Vol\.\s*\d+\)\.\s*` at the current position, for `re.split`
(parser.py line 156); returns the length of the match. -/
def volSepAt (l : List Char) : Option Nat :=
  let w1 := l.takeWhile isSpace
  match l.dropWhile isSpace with
  | '(' :: 'V' :: 'o' :: 'l' :: '.' :: r =>
    let w2 := r.takeWhile isSpace
    match digitsTok (r.dropWhile isSpace) with
    | some (d, ')' :: '.' :: t) =>
      some (w1.length + 5 + w2.length + d.length + 2 + (t.takeWhile isSpace).length)
    | _ => none
  | _ => none

/-- `re.split` (pattern without capture groups): cut at each leftmost,
non-overlapping match.  (Fuel-driven structural recursion; every step
consumes at least one character, so `l.length + 1` fuel always suffices.) -/
def splitByAux (m : List Char → Option Nat) : Nat → List Char → List Char → List (List Char)
  | 0, acc, l => [acc.reverse ++ l]
  | _ + 1, acc, [] => [acc.reverse]
  | fuel + 1, acc, c :: cs =>
    match m (c :: cs) with
    | some k => acc.reverse :: splitByAux m fuel [] (cs.drop (k - 1))
    | none => splitByAux m fuel (c :: acc) cs

def splitBy (m : List Char → Option Nat) (l : List Char) : List (List Char) :=
  splitByAux m (l.length + 1) [] l

/-- The author/editor/year step of the edited-book extractor (parser.py
lines 143–146). -/
def editedStep1 (citation : String) : Rec :=
  match edAuthorYearMatch citation.data with
  | some (g1, y, _) =>
    (bookDefaults.set "authors" (.authorsV (parse_authors (mkS g1)))).set "year" (.s (mkS y))
  | none => bookDefaults

/-- parser.py line 149: `citation.split(f"{year}).")[-1].strip()`. -/
def editedRemaining (citation : String) (year : String) : List Char :=
  pyStrip ((pySplit (year.data ++ [')', '.']) citation.data).getLastD [])

/-- parser.py lines 127–179. -/
def parse_edited_book_citation (citation : String) : Rec :=
  let result := editedStep1 citation
  let remaining := editedRemaining citation (result.getS "year")
  let result :=
    match reSearch volAt remaining with
    | some v =>
      let result := result.set "volume" (.s (mkS v))
      match splitBy volSepAt remaining with
      | [t, p] =>
        (result.set "title" (.s (mkS (pyStrip t)))).set "publisher" (.s (mkS (pyStrip p)))
      | _ => result
    | none =>
      match pyRsplitDot remaining with
      | [t, p] =>
        (result.set "title" (.s (mkS (pyStrip t)))).set "publisher" (.s (mkS (pyStrip p)))
      | _ => result.set "title" (.s (mkS (pyStrip remaining)))
  -- lines 170–171
  let result := result.set "title" (.s (mkS (pyRstrip ['.'] (result.getS "title").data)))
  let result := result.set "publisher" (.s (mkS (pyRstrip ['.'] (result.getS "publisher").data)))
  -- lines 174–177 (under the guard, the title contains a period, so the
  -- rsplit always yields two parts; the fallback arm is unreachable)
  if result.getS "publisher" = "" && (result.getS "title").data.contains '.' then
    match pyRsplitDot (result.getS "title").data with
    | [t, p] =>
      (result.set "title" (.s (mkS (pyStrip t)))).set "publisher" (.s (mkS (pyStrip p)))
    | _ => result
  else result

/-! ## Book section extractor — parser.py lines 182–215 -/

/-- `\d+[-–]\d+` — digits, an ASCII hyphen or en-dash, digits. -/
def pagesDash (l : List Char) : Option (List Char × List Char) :=
  match digitsTok l with
  | some (d1, c :: r2) =>
    if isDash c then
      match digitsTok r2 with
      | some (d2, r3) => some (d1 ++ c :: d2, r3)
      | none => none
    else none
  | _ => none

/-- `\s*\(pp\.\s*(\d+[-–]\d+)\)\.\s*` at the current position, for
`re.split` with one capture group (parser.py line 205); returns the match
length and the captured page range. -/
def ppSepAt (l : List Char) : Option (Nat × List Char) :=
  let w1 := l.takeWhile isSpace
  match l.dropWhile isSpace with
  | '(' :: 'p' :: 'p' :: '.' :: r =>
    let w2 := r.takeWhile isSpace
    match pagesDash (r.dropWhile isSpace) with
    | some (pg, ')' :: '.' :: t) =>
      some (w1.length + 4 + w2.length + pg.length + 2 + (t.takeWhile isSpace).length, pg)
    | _ => none
  | _ => none

/-- `re.split` with a capture group: the captured text is interleaved
between the parts, as Python does.  (Fuel-driven structural recursion, as
for `splitByAux`.) -/
def splitCapAux (m : List Char → Option (Nat × List Char)) :
    Nat → List Char → List Char → List (List Char)
  | 0, acc, l => [acc.reverse ++ l]
  | _ + 1, acc, [] => [acc.reverse]
  | fuel + 1, acc, c :: cs =>
    match m (c :: cs) with
    | some (k, cap) => acc.reverse :: cap :: splitCapAux m fuel [] (cs.drop (k - 1))
    | none => splitCapAux m fuel (c :: acc) cs

def splitCap (m : List Char → Option (Nat × List Char)) (l : List Char) :
    List (List Char) :=
  splitCapAux m (l.length + 1) [] l

/-- parser.py lines 182–215. -/
def parse_book_section_citation (citation : String) : Rec :=
  let result := bookDefaults
  let result :=
    match authorYearMatch citation.data with
    | some (g1, y, _) =>
      (result.set "authors" (.authorsV (parse_authors (mkS g1)))).set "year" (.s (mkS y))
    | none => result
  let remaining :=
    pyStrip ((pySplit ((result.getS "year").data ++ [')', '.']) citation.data).getLastD [])
  match splitCap ppSepAt remaining with
  | [t, pg, pub] =>
    ((result.set "title" (.s (mkS (pyStrip t)))).set "page_range" (.s (mkS pg))).set
      "publisher" (.s (mkS (pyRstrip ['.'] (pyStrip pub))))
  | [t, pub] =>
    (result.set "title" (.s (mkS (pyStrip t)))).set "publisher"
      (.s (mkS (pyRstrip ['.'] (pyStrip pub))))
  | _ => result

/-! ## Book chapter extractor — parser.py lines 217–252 -/

/-- `pp\.\s*(\d+[-–]\d+)\)` at the current position; nothing follows in the
chapter pattern, so the match ends at `)`.  Returns the page range. -/
def ppCore (l : List Char) : Option (List Char) :=
  match l with
  | 'p' :: 'p' :: '.' :: r =>
    match pagesDash (r.dropWhile isSpace) with
    | some (pg, ')' :: _) => some pg
    | _ => none
  | _ => none

/-- The optional volume part `\(((?:Vol\.|Vols\.)\s*\d+[,–-]*\d*)\s*,?` of
the chapter pattern, followed by `\s*` and the mandatory page part.  All the
greedy runs are followed by elements that cannot consume the released
characters, so the assignment is the maximal one.  Returns (volume group,
page range). -/
def chapVolThenPp (l : List Char) : Option (List Char × List Char) :=
  match l with
  | '(' :: r =>
    let core? : Option (List Char × List Char) :=
      match r with
      | 'V' :: 'o' :: 'l' :: '.' :: t => some (['V', 'o', 'l', '.'], t)
      | 'V' :: 'o' :: 'l' :: 's' :: '.' :: t => some (['V', 'o', 'l', 's', '.'], t)
      | _ => none
    match core? with
    | none => none
    | some (vtxt, t) =>
      let w := t.takeWhile isSpace
      let t1 := t.dropWhile isSpace
      let d1 := t1.takeWhile isDigitC
      if d1.isEmpty then none
      else
        let t2 := t1.dropWhile isDigitC
        let b := t2.takeWhile (fun c => c = ',' || c = '–' || c = '-')
        let t3 := t2.dropWhile (fun c => c = ',' || c = '–' || c = '-')
        let d2 := t3.takeWhile isDigitC
        let t4 := t3.dropWhile isDigitC
        let g2 := vtxt ++ w ++ d1 ++ b ++ d2
        let t5 := t4.dropWhile isSpace
        let t6 :=
          match t5 with
          | ',' :: t6 => t6.dropWhile isSpace
          | _ => t5
        match ppCore t6 with
        | some pg => some (g2, pg)
        | none => none
  | _ => none

/-- Continuation of the chapter pattern after the lazy title group:
`\s*(?:\(...)?\s*(?:pp\....\))` — maximal whitespace, then the optional
volume part (preferred) or directly the page part. -/
def chapTail (l : List Char) : Option (Option (List Char) × List Char) :=
  let t := l.dropWhile isSpace
  match chapVolThenPp t with
  | some (g2, pg) => some (some g2, pg)
  | none =>
    match ppCore t with
    | some pg => some (none, pg)
    | none => none

/-- Lazy title loop of the chapter pattern. -/
def chapLazy : List Char → List Char → Option (List Char × Option (List Char) × List Char)
  | acc, l =>
    match chapTail l with
    | some (g2, pg) => some (acc.reverse, g2, pg)
    | none =>
      match l with
      | [] => none
      | c :: cs => if c = '\n' then none else chapLazy (c :: acc) cs

/-- `In\s+(.*?)\s*(?:\(((?:Vol\.|Vols\.)\s*\d+[,–-]*\d*)\s*,?)?\s*(?:pp\.\s*(\d+[-–]\d+)\))`
at the current position (parser.py line 237).  Returns (collection title,
optional volume text, page range). -/
def chapAt (l : List Char) : Option (List Char × Option (List Char) × List Char) :=
  match l with
  | 'I' :: 'n' :: r =>
    if (r.takeWhile isSpace).isEmpty then none
    else chapLazy [] (r.dropWhile isSpace)
  | _ => none

/-- Lazy `(.*?)\.$` — shortest prefix followed by a period at the end. -/
def lazyDotEnd : List Char → List Char → Option (List Char)
  | _, [] => none
  | acc, c :: cs =>
    if c = '.' && endDollar cs then some acc.reverse
    else if c = '\n' then none
    else lazyDotEnd (c :: acc) cs

/-- `(?:pp\.\s*\d+[-–]\d+\))\.?\s*(.*?)\.$` at the current position
(parser.py line 246): the greedy optional period after `)` is tried first.
Returns the publisher group. -/
def chapPubAt (l : List Char) : Option (List Char) :=
  match l with
  | 'p' :: 'p' :: '.' :: r =>
    match pagesDash (r.dropWhile isSpace) with
    | some (_, ')' :: t) =>
      (match t with
       | '.' :: t2 => greedyWs (lazyDotEnd []) t2
       | _ => none).orElse fun _ => greedyWs (lazyDotEnd []) t
    | _ => none
  | _ => none

/-- `re.sub(r'^.*?:\s*', '', s)` (parser.py line 250): drop everything up to
and including the first colon (the lazy prefix cannot cross a newline) and
any whitespace after it; the text is unchanged when no colon is reachable. -/
def stripLocAux : List Char → Option (List Char)
  | [] => none
  | ':' :: r => some (r.dropWhile isSpace)
  | c :: cs => if c = '\n' then none else stripLocAux cs

def stripLoc (l : List Char) : List Char :=
  match stripLocAux l with
  | some r => r
  | none => l

/-- The default record of the chapter extractor (parser.py lines 218–228).
Unlike the other extractors it has no `issue` and no `journal_name` key. -/
def chapterDefaults : Rec :=
  [("source_type", .s "book"), ("authors", .authorsV []), ("title", .s ""),
   ("year", .s ""), ("publisher", .s ""), ("volume", .s ""),
   ("page_range", .s ""), ("url", .s ""), ("doi", .s "")]

/-- parser.py lines 217–252.  (`group(3)` of the chapter pattern is
mandatory whenever the pattern matches, so the source's `if` guard on it is
always taken.) -/
def parse_book_chapter_citation (citation : String) : Rec :=
  let result := chapterDefaults
  let result :=
    match authorYearMatch citation.data with
    | some (g1, y, _) =>
      (result.set "authors" (.authorsV (parse_authors (mkS g1)))).set "year" (.s (mkS y))
    | none => result
  let result :=
    match reSearch chapAt citation.data with
    | some (g1, g2, g3) =>
      let result := result.set "title" (.s (mkS (pyRstrip [' ', '('] (pyStrip g1))))
      let result :=
        match g2 with
        | some v => result.set "volume" (.s (mkS (pyStrip v)))
        | none => result
      result.set "page_range" (.s (mkS g3))
    | none => result
  match reSearch chapPubAt citation.data with
  | some p =>
    let result := result.set "publisher" (.s (mkS (pyStrip p)))
    result.set "publisher" (.s (mkS (stripLoc (result.getS "publisher").data)))
  | none => result

/-! ## Classifier — parser.py lines 254–283 -/

/-- `\((Ed\.?|Eds\.?)\)` as a search cue (parser.py lines 255 and 278). -/
def edCueAt (l : List Char) : Option Unit :=
  match edParen l with
  | some _ => some ()
  | none => none

def edCue (citation : String) : Bool := (reSearch edCueAt citation.data).isSome

/-- `\(pp\.\s*\d+[-–]\d+\)` as a search cue (parser.py lines 258 and 278). -/
def ppCueAt (l : List Char) : Option Unit :=
  match l with
  | '(' :: r =>
    match ppCore r with
    | some _ => some ()
    | none => none
  | _ => none

def ppCue (citation : String) : Bool := (reSearch ppCueAt citation.data).isSome

/-- `\.\s+In\s+` — the chapter cue (parser.py line 268). -/
def dotInAt (l : List Char) : Option Unit :=
  match l with
  | '.' :: r =>
    if (r.takeWhile isSpace).isEmpty then none
    else
      match r.dropWhile isSpace with
      | 'I' :: 'n' :: t => if (t.takeWhile isSpace).isEmpty then none else some ()
      | _ => none
  | _ => none

def chapterCue (citation : String) : Bool := (reSearch dotInAt citation.data).isSome

/-- `\d+\(\d+\),` — first journal cue (parser.py line 272). -/
def cue1At (l : List Char) : Option Unit :=
  match digitsTok l with
  | some (_, '(' :: r) =>
    match digitsTok r with
    | some (_, ')' :: ',' :: _) => some ()
    | _ => none
  | _ => none

def journalCue1 (citation : String) : Bool := (reSearch cue1At citation.data).isSome

/-- `,\s*\d+,\s*\d+[-–]\d+` — second journal cue (parser.py line 273). -/
def cue2At (l : List Char) : Option Unit :=
  match l with
  | ',' :: r =>
    match digitsTok (r.dropWhile isSpace) with
    | some (_, ',' :: r2) =>
      match pagesDash (r2.dropWhile isSpace) with
      | some _ => some ()
      | none => none
    | _ => none
  | _ => none

def journalCue2 (citation : String) : Bool := (reSearch cue2At citation.data).isSome

/-- `[\w\s]+,\s*\d+[-–]\d+` — third journal cue (parser.py line 274). -/
def cue3At (l : List Char) : Option Unit :=
  match l with
  | [] => none
  | c0 :: _ =>
    if isWS c0 then
      match l.dropWhile isWS with
      | ',' :: r1 =>
        match pagesDash (r1.dropWhile isSpace) with
        | some _ => some ()
        | none => none
      | _ => none
    else none

def journalCue3 (citation : String) : Bool := (reSearch cue3At citation.data).isSome

/-- parser.py lines 254–263. -/
def parse_book_citation (citation : String) : Rec :=
  if edCue citation then parse_edited_book_citation citation
  else if ppCue citation then parse_book_section_citation citation
  else parse_standard_book_citation citation

/-- parser.py lines 266–283. -/
def parse_apa_citation (citation : String) : Rec :=
  if chapterCue citation then parse_book_chapter_citation citation
  else if journalCue1 citation || journalCue2 citation || journalCue3 citation then
    parse_journal_citation citation
  else if edCue citation || ppCue citation then parse_book_citation citation
  else parse_standard_book_citation citation

inductive ExtractorTag where
  | bookChapter
  | journal
  | editedBook
  | bookSection
  | standardBook
deriving DecidableEq, Repr

/-- The dispatch of `parse_apa_citation` (with `parse_book_citation`'s inner
dispatch inlined), as a tag: which extractor handles the citation. -/
def selectedExtractor (citation : String) : ExtractorTag :=
  if chapterCue citation then .bookChapter
  else if journalCue1 citation || journalCue2 citation || journalCue3 citation then .journal
  else if edCue citation then .editedBook
  else if ppCue citation then .bookSection
  else .standardBook

/-- The key list shared by the journal, standard-book, edited-book and
book-section records. -/
def fullKeys : List String :=
  ["source_type", "authors", "title", "year", "publisher", "volume", "issue",
   "page_range", "journal_name", "url", "doi"]

/-- The key list of the book-chapter record: `fullKeys` without `issue` and
`journal_name`. -/
def chapterKeys : List String :=
  ["source_type", "authors", "title", "year", "publisher", "volume",
   "page_range", "url", "doi"]

/-- The value of `result["year"]` right after the shared author/year step of
the journal, standard-book, book-section and book-chapter extractors: the
`(\d{4})` group of the leading `(.*?)\s*\((\d{4})\)` match, or `""` when that
match fails. -/
def ayYear (c : String) : String :=
  match authorYearMatch c.data with
  | some (_, y, _) => mkS y
  | none => ""

/-- parser.py line 204: the remaining text of the book-section extractor,
`citation.split(f"{result['year']}).")[-1].strip()` (the year field holds
the group captured by the author/year step). -/
def sectionRemaining (c : String) : List Char :=
  pyStrip ((pySplit ((ayYear c).data ++ [')', '.']) c.data).getLastD [])

/-! # Theorems -/
/-- Length bound for `dropWhile`, used in termination arguments. -/
theorem lenDropWhileLe (p : Char → Bool) (l : List Char) :
    (l.dropWhile p).length ≤ l.length :=
  (l.dropWhile_sublist p).length_le

theorem initTailF_snd_le : ∀ (fuel : Nat) (l : List Char),
    (initTailF fuel l).2.length ≤ l.length := by
  intro fuel
  induction fuel with
  | zero => intro l; simp [initTailF]
  | succ fuel ih =>
    intro l
    simp only [initTailF]
    split
    · rename_i r
      split
      · rename_i c r' hdw
        by_cases hu : isUpperAZ c = true
        · simp only [hu, if_true]
          have h1 : (r.dropWhile isSpace).length ≤ r.length := lenDropWhileLe isSpace r
          rw [hdw] at h1
          simp only [List.length_cons] at h1 ⊢
          have := ih r'
          omega
        · simp [hu]
      · simp
    · simp

theorem initTail_snd_le (l : List Char) : (initTail l).2.length ≤ l.length :=
  initTailF_snd_le (l.length + 1) l

theorem lastNameAt_rest_lt {l run rest : List Char}
    (h : lastNameAt l = some (run, rest)) : rest.length < l.length := by
  match l with
  | [] => simp [lastNameAt] at h
  | c0 :: cs =>
    unfold lastNameAt at h
    by_cases h0 : isWordDash c0 = true
    · simp only [h0, if_true] at h
      have hdrop : (c0 :: cs).dropWhile (fun c => isWordDash c || isSpace c)
          = cs.dropWhile (fun c => isWordDash c || isSpace c) := by
        simp [List.dropWhile_cons, h0]
      rw [hdrop] at h
      split at h
      · split at h
        · simp only [Option.some.injEq, Prod.mk.injEq] at h
          have h2 : rest = cs.dropWhile (fun c => isWordDash c || isSpace c) := h.2.symm
          have := lenDropWhileLe (fun c => isWordDash c || isSpace c) cs
          simp only [h2, List.length_cons]
          omega
        · simp at h
      · simp at h
    · simp [h0] at h

theorem initialsAt_rest_le {l cap rest : List Char}
    (h : initialsAt l = some (cap, rest)) : rest.length < l.length := by
  match l with
  | [] => simp [initialsAt] at h
  | c :: r =>
    unfold initialsAt at h
    by_cases hu : isUpperAZ c = true
    · simp only [hu, if_true] at h
      have hle : (initTail r).2.length ≤ r.length := initTail_snd_le r
      split at h
      · rename_i r6 hp2
        simp only [Option.some.injEq, Prod.mk.injEq] at h
        have h2 : rest = r6 := h.2.symm
        rw [hp2] at hle
        simp only [h2, List.length_cons] at hle ⊢
        omega
      · rename_i hp2
        simp only [Option.some.injEq, Prod.mk.injEq] at h
        have h2 : rest = (initTail r).2 := h.2.symm
        simp only [h2, List.length_cons]
        omega
    · simp [hu] at h

theorem tryAuthorAt_rest_lt {l : List Char} {caps : List Char × List Char}
    {rest : List Char} (h : tryAuthorAt l = some (caps, rest)) :
    rest.length < l.length := by
  unfold tryAuthorAt at h
  split at h
  · rename_i run r2 hln
    have hlt1 : (',' :: r2).length < l.length := lastNameAt_rest_lt hln
    split at h
    · rename_i ini r5 hini
      simp only [Option.some.injEq, Prod.mk.injEq] at h
      have hlt2 : r5.length < (r2.dropWhile isSpace).length := initialsAt_rest_le hini
      have hle3 : (r2.dropWhile isSpace).length ≤ r2.length := lenDropWhileLe isSpace r2
      have h2 : rest.length = r5.length := by rw [← h.2]
      simp only [List.length_cons] at hlt1
      omega
    · simp at h
  · simp at h

/-! ## Association-list record lemmas -/

theorem Rec.get_set_self (r : Rec) (k : String) (v : FieldVal) :
    (r.set k v).get k = some v := by
  induction r with
  | nil => simp [Rec.set, Rec.get]
  | cons kv r ih =>
    obtain ⟨k', v'⟩ := kv
    by_cases h : k' = k
    · simp [Rec.set, Rec.get, h]
    · simp [Rec.set, Rec.get, h, ih]

theorem Rec.get_set_ne (r : Rec) {k k' : String} (h : k ≠ k') (v : FieldVal) :
    (r.set k' v).get k = r.get k := by
  have h1 : k' ≠ k := Ne.symm h
  induction r with
  | nil => simp [Rec.set, Rec.get, h1]
  | cons kv r ih =>
    obtain ⟨k'', v''⟩ := kv
    by_cases h2 : k'' = k'
    · subst h2
      simp [Rec.set, Rec.get, h1]
    · simp [Rec.set, Rec.get, h2, ih]

theorem Rec.keys_set_of_mem {r : Rec} {k : String} (h : k ∈ Rec.keys r) (v : FieldVal) :
    Rec.keys (Rec.set r k v) = Rec.keys r := by
  induction r with
  | nil => simp [Rec.keys] at h
  | cons kv r ih =>
    obtain ⟨k', v'⟩ := kv
    by_cases h2 : k' = k
    · simp [Rec.set, Rec.keys, h2]
    · have hm : k ∈ Rec.keys r := by
        simp only [Rec.keys, List.map_cons, List.mem_cons] at h
        cases h with
        | inl he => exact absurd he.symm h2
        | inr hm => exact hm
      simp only [Rec.set, Rec.keys, List.map_cons, if_neg h2]
      simpa [Rec.keys] using ih hm

/-- Chaining form of `Rec.keys_set_of_mem`. -/
theorem Rec.keys_set_preserve {r : Rec} {ks : List String} (hr : Rec.keys r = ks)
    {k : String} (hk : k ∈ ks) (v : FieldVal) : Rec.keys (Rec.set r k v) = ks := by
  rw [Rec.keys_set_of_mem (hr ▸ hk), hr]

/-! ## Search and substring lemmas -/

theorem isPrefixOf_exists : ∀ {pat l : List Char}, pat.isPrefixOf l = true →
    ∃ b, l = pat ++ b := by
  intro pat
  induction pat with
  | nil => intro l _; exact ⟨l, rfl⟩
  | cons p ps ih =>
    intro l h
    match l with
    | [] => simp [List.isPrefixOf] at h
    | c :: cs =>
      simp only [List.isPrefixOf, Bool.and_eq_true, beq_iff_eq] at h
      obtain ⟨b, hb⟩ := ih h.2
      exact ⟨b, by simp [h.1, hb]⟩

theorem containsList_exists : ∀ {l pat : List Char}, containsList pat l = true →
    ∃ a b, l = a ++ pat ++ b := by
  intro l
  induction l with
  | nil =>
    intro pat h
    simp only [containsList] at h
    obtain ⟨b, hb⟩ := isPrefixOf_exists h
    exact ⟨[], b, by simp [hb]⟩
  | cons c cs ih =>
    intro pat h
    simp only [containsList, Bool.or_eq_true] at h
    cases h with
    | inl hp =>
      obtain ⟨b, hb⟩ := isPrefixOf_exists hp
      exact ⟨[], b, by simp [hb]⟩
    | inr hr =>
      obtain ⟨a, b, hab⟩ := ih hr
      exact ⟨c :: a, b, by simp [hab]⟩

theorem reSearch_isSome_of_suffix {α : Type} {m : List Char → Option α} {v : List Char}
    (h : (m v).isSome = true) : ∀ a : List Char, (reSearch m (a ++ v)).isSome = true := by
  intro a
  induction a with
  | nil =>
    simp only [List.nil_append]
    cases v with
    | nil => simpa [reSearch] using h
    | cons c cs =>
      simp only [reSearch]
      cases hm : m (c :: cs) with
      | some r => simp
      | none => rw [hm] at h; simp at h
  | cons c a ih =>
    simp only [List.cons_append, reSearch]
    cases hm : m (c :: (a ++ v)) with
    | some r => simp
    | none => simpa using ih

/-! ## Key-set lemmas: each extractor returns a record of fixed shape -/

theorem parse_journal_citation_keys (c : String) :
    (parse_journal_citation c).keys = fullKeys := by
  simp only [parse_journal_citation, parse_standard_journal_citation,
    parse_journal_citation_with_volume, parse_journal_citation_without_volume]
  cases h1 : reSearch stdJournalAt c.data <;>
    cases h2 : reSearch volJournalAt c.data <;>
      cases h3 : reSearch noVolJournalAt c.data <;>
        simp only [Option.map, Option.orElse] <;>
          repeat' split
  all_goals rfl

theorem parse_standard_book_citation_keys (c : String) :
    (parse_standard_book_citation c).keys = fullKeys := by
  simp only [parse_standard_book_citation]
  repeat' split
  all_goals rfl

theorem editedStep1_keys (c : String) : (editedStep1 c).keys = fullKeys := by
  unfold editedStep1
  repeat' split
  all_goals rfl

theorem parse_edited_book_citation_keys (c : String) :
    (parse_edited_book_citation c).keys = fullKeys := by
  simp only [parse_edited_book_citation]
  repeat' split
  all_goals repeat (first | exact editedStep1_keys c | refine Rec.keys_set_preserve ?_ (by decide) _)

theorem parse_book_section_citation_keys (c : String) :
    (parse_book_section_citation c).keys = fullKeys := by
  simp only [parse_book_section_citation]
  repeat' split
  all_goals rfl

theorem parse_book_chapter_citation_keys (c : String) :
    (parse_book_chapter_citation c).keys = chapterKeys := by
  simp only [parse_book_chapter_citation]
  repeat' split
  all_goals rfl

/-- Unfolding of `sectionRemaining` when the author/year match fails. -/
theorem sectionRemaining_none (c : String) (hay : authorYearMatch c.data = none) :
    sectionRemaining c =
      pyStrip ((pySplit ((Rec.getS bookDefaults "year").data ++ [')', '.'])
        c.data).getLastD []) := by
  simp only [sectionRemaining, ayYear]
  rw [hay]
  rfl

/-- Unfolding of `sectionRemaining` when the author/year match succeeds. -/
theorem sectionRemaining_some (c : String) (g1 y r : List Char)
    (hay : authorYearMatch c.data = some (g1, y, r)) :
    sectionRemaining c =
      pyStrip ((pySplit ((Rec.getS ((bookDefaults.set "authors"
        (FieldVal.authorsV (parse_authors (mkS g1)))).set "year"
        (FieldVal.s (mkS y))) "year").data ++ [')', '.']) c.data).getLastD []) := by
  simp only [sectionRemaining, ayYear]
  rw [hay]
  rfl

set_option maxHeartbeats 1600000 in
/-- Default-value guarantees of the journal extractor: each failed step
leaves its target fields at the default empty values, and the publisher
field (which no journal pattern targets) is always empty. -/
theorem pjc_defaults (c : String) :
    (authorYearMatch c.data = none →
      (parse_journal_citation c).get "authors" = some (FieldVal.authorsV []) ∧
      (parse_journal_citation c).get "year" = some (FieldVal.s "")) ∧
    (reSearch titleAt c.data = none →
      (parse_journal_citation c).get "title" = some (FieldVal.s "")) ∧
    (reSearch stdJournalAt c.data = none → reSearch volJournalAt c.data = none →
      reSearch noVolJournalAt c.data = none →
      (parse_journal_citation c).get "journal_name" = some (FieldVal.s "") ∧
      (parse_journal_citation c).get "volume" = some (FieldVal.s "") ∧
      (parse_journal_citation c).get "issue" = some (FieldVal.s "") ∧
      (parse_journal_citation c).get "page_range" = some (FieldVal.s "")) ∧
    (reSearch doiAt c.data = none →
      (parse_journal_citation c).get "doi" = some (FieldVal.s "") ∧
      (parse_journal_citation c).get "url" = some (FieldVal.s "")) ∧
    (parse_journal_citation c).get "publisher" = some (FieldVal.s "") := by
  refine ⟨?_, ?_, ?_, ?_, ?_⟩
  · intro h
    simp only [parse_journal_citation, parse_standard_journal_citation,
      parse_journal_citation_with_volume, parse_journal_citation_without_volume]
    rw [h]
    cases h1 : reSearch stdJournalAt c.data <;>
      cases h2 : reSearch volJournalAt c.data <;>
        cases h3 : reSearch noVolJournalAt c.data <;>
          simp only [Option.map, Option.orElse] <;>
            (try dsimp only) <;>
              repeat' split
    all_goals first | exact ⟨rfl, rfl⟩ | simp_all
  · intro h
    simp only [parse_journal_citation, parse_standard_journal_citation,
      parse_journal_citation_with_volume, parse_journal_citation_without_volume]
    rw [h]
    cases h1 : reSearch stdJournalAt c.data <;>
      cases h2 : reSearch volJournalAt c.data <;>
        cases h3 : reSearch noVolJournalAt c.data <;>
          simp only [Option.map, Option.orElse] <;>
            (try dsimp only) <;>
              repeat' split
    all_goals first | rfl | simp_all
  · intro ha hb hc
    simp only [parse_journal_citation, parse_standard_journal_citation,
      parse_journal_citation_with_volume, parse_journal_citation_without_volume]
    rw [ha, hb, hc]
    simp only [Option.map, Option.orElse]
    (try dsimp only)
    repeat' split
    all_goals first | exact ⟨rfl, rfl, rfl, rfl⟩ | simp_all
  · intro h
    simp only [parse_journal_citation, parse_standard_journal_citation,
      parse_journal_citation_with_volume, parse_journal_citation_without_volume]
    rw [h]
    cases h1 : reSearch stdJournalAt c.data <;>
      cases h2 : reSearch volJournalAt c.data <;>
        cases h3 : reSearch noVolJournalAt c.data <;>
          simp only [Option.map, Option.orElse] <;>
            (try dsimp only) <;>
              repeat' split
    all_goals first | exact ⟨rfl, rfl⟩ | simp_all
  · simp only [parse_journal_citation, parse_standard_journal_citation,
      parse_journal_citation_with_volume, parse_journal_citation_without_volume]
    cases h1 : reSearch stdJournalAt c.data <;>
      cases h2 : reSearch volJournalAt c.data <;>
        cases h3 : reSearch noVolJournalAt c.data <;>
          simp only [Option.map, Option.orElse] <;>
            (try dsimp only) <;>
              repeat' split
    all_goals first | rfl | simp_all

/-- Default-value guarantees of the standard-book extractor: a failed
author/year or title/publisher match leaves the corresponding fields empty,
an unmatched optional page group leaves `page_range` empty, and the fields
no pattern targets are always empty. -/
theorem psbc_defaults (c : String) :
    (authorYearMatch c.data = none →
      (parse_standard_book_citation c).get "authors" = some (FieldVal.authorsV []) ∧
      (parse_standard_book_citation c).get "year" = some (FieldVal.s "")) ∧
    (reSearch sbAt c.data = none →
      (parse_standard_book_citation c).get "title" = some (FieldVal.s "") ∧
      (parse_standard_book_citation c).get "publisher" = some (FieldVal.s "") ∧
      (parse_standard_book_citation c).get "page_range" = some (FieldVal.s "")) ∧
    (∀ t p : List Char, reSearch sbAt c.data = some (t, p, none) →
      (parse_standard_book_citation c).get "page_range" = some (FieldVal.s "")) ∧
    ((parse_standard_book_citation c).get "volume" = some (FieldVal.s "") ∧
      (parse_standard_book_citation c).get "issue" = some (FieldVal.s "") ∧
      (parse_standard_book_citation c).get "journal_name" = some (FieldVal.s "") ∧
      (parse_standard_book_citation c).get "url" = some (FieldVal.s "") ∧
      (parse_standard_book_citation c).get "doi" = some (FieldVal.s "")) := by
  refine ⟨?_, ?_, ?_, ?_⟩
  · intro h
    simp only [parse_standard_book_citation]
    rw [h]
    (try dsimp only)
    repeat' split
    all_goals first | exact ⟨rfl, rfl⟩ | simp_all
  · intro h
    simp only [parse_standard_book_citation]
    rw [h]
    (try dsimp only)
    repeat' split
    all_goals first | exact ⟨rfl, rfl, rfl⟩ | simp_all
  · intro t p h
    simp only [parse_standard_book_citation]
    rw [h]
    (try dsimp only)
    repeat' split
    all_goals first | rfl | simp_all
  · simp only [parse_standard_book_citation]
    repeat' split
    all_goals first | exact ⟨rfl, rfl, rfl, rfl, rfl⟩ | simp_all

set_option maxHeartbeats 1600000 in
/-- Default-value guarantees of the edited-book extractor: a failed
author/editor/year match leaves `authors` and `year` empty, a failed volume
search leaves `volume` empty, and the fields no pattern targets are always
empty. -/
theorem pebc_defaults (c : String) :
    (edAuthorYearMatch c.data = none →
      (parse_edited_book_citation c).get "authors" = some (FieldVal.authorsV []) ∧
      (parse_edited_book_citation c).get "year" = some (FieldVal.s "")) ∧
    (reSearch volAt (editedRemaining c ((editedStep1 c).getS "year")) = none →
      (parse_edited_book_citation c).get "volume" = some (FieldVal.s "")) ∧
    ((parse_edited_book_citation c).get "issue" = some (FieldVal.s "") ∧
      (parse_edited_book_citation c).get "page_range" = some (FieldVal.s "") ∧
      (parse_edited_book_citation c).get "journal_name" = some (FieldVal.s "") ∧
      (parse_edited_book_citation c).get "url" = some (FieldVal.s "") ∧
      (parse_edited_book_citation c).get "doi" = some (FieldVal.s "")) := by
  refine ⟨?_, ?_, ?_⟩
  · intro h
    simp only [parse_edited_book_citation, editedStep1]
    simp only [h]
    (try dsimp only)
    repeat' split
    all_goals first | exact ⟨rfl, rfl⟩ | simp_all
  · intro h
    simp only [parse_edited_book_citation]
    simp only [h]
    simp only [editedStep1]
    (try dsimp only)
    repeat' split
    all_goals first | rfl | simp_all
  · simp only [parse_edited_book_citation, editedStep1]
    repeat' split
    all_goals first | exact ⟨rfl, rfl, rfl, rfl, rfl⟩ | simp_all

/-- Default-value guarantees of the book-section extractor: a failed
author/year match leaves `authors` and `year` empty, a split that yields
neither two nor three parts leaves `title`, `page_range` and `publisher`
empty, and the fields no pattern targets are always empty. -/
theorem psec_defaults (c : String) :
    (authorYearMatch c.data = none →
      (parse_book_section_citation c).get "authors" = some (FieldVal.authorsV []) ∧
      (parse_book_section_citation c).get "year" = some (FieldVal.s "")) ∧
    ((splitCap ppSepAt (sectionRemaining c)).length ≠ 2 →
      (splitCap ppSepAt (sectionRemaining c)).length ≠ 3 →
      (parse_book_section_citation c).get "title" = some (FieldVal.s "") ∧
      (parse_book_section_citation c).get "page_range" = some (FieldVal.s "") ∧
      (parse_book_section_citation c).get "publisher" = some (FieldVal.s "")) ∧
    ((parse_book_section_citation c).get "volume" = some (FieldVal.s "") ∧
      (parse_book_section_citation c).get "issue" = some (FieldVal.s "") ∧
      (parse_book_section_citation c).get "journal_name" = some (FieldVal.s "") ∧
      (parse_book_section_citation c).get "url" = some (FieldVal.s "") ∧
      (parse_book_section_citation c).get "doi" = some (FieldVal.s "")) := by
  refine ⟨?_, ?_, ?_⟩
  · intro h
    simp only [parse_book_section_citation]
    rw [h]
    (try dsimp only)
    repeat' split
    all_goals first | exact ⟨rfl, rfl⟩ | simp_all
  · intro h2 h3
    cases hay : authorYearMatch c.data with
    | none =>
      rw [sectionRemaining_none c hay] at h2 h3
      simp only [parse_book_section_citation]
      rw [hay]
      (try dsimp only)
      split
      all_goals first | exact ⟨rfl, rfl, rfl⟩ | simp_all
    | some v =>
      obtain ⟨g1, y, r⟩ := v
      rw [sectionRemaining_some c g1 y r hay] at h2 h3
      simp only [parse_book_section_citation]
      rw [hay]
      (try dsimp only)
      split
      all_goals first | exact ⟨rfl, rfl, rfl⟩ | simp_all
  · simp only [parse_book_section_citation]
    repeat' split
    all_goals first | exact ⟨rfl, rfl, rfl, rfl, rfl⟩ | simp_all

/-- Default-value guarantees of the book-chapter extractor: a failed
author/year match leaves `authors` and `year` empty, a failed book-info
match leaves `title`, `volume` and `page_range` empty, an unmatched optional
volume group leaves `volume` empty, a failed publisher match leaves
`publisher` empty, and `url` and `doi` are always empty. -/
theorem pchc_defaults (c : String) :
    (authorYearMatch c.data = none →
      (parse_book_chapter_citation c).get "authors" = some (FieldVal.authorsV []) ∧
      (parse_book_chapter_citation c).get "year" = some (FieldVal.s "")) ∧
    (reSearch chapAt c.data = none →
      (parse_book_chapter_citation c).get "title" = some (FieldVal.s "") ∧
      (parse_book_chapter_citation c).get "volume" = some (FieldVal.s "") ∧
      (parse_book_chapter_citation c).get "page_range" = some (FieldVal.s "")) ∧
    (∀ g1 g3 : List Char, reSearch chapAt c.data = some (g1, none, g3) →
      (parse_book_chapter_citation c).get "volume" = some (FieldVal.s "")) ∧
    (reSearch chapPubAt c.data = none →
      (parse_book_chapter_citation c).get "publisher" = some (FieldVal.s "")) ∧
    ((parse_book_chapter_citation c).get "url" = some (FieldVal.s "") ∧
      (parse_book_chapter_citation c).get "doi" = some (FieldVal.s "")) := by
  refine ⟨?_, ?_, ?_, ?_, ?_⟩
  · intro h
    simp only [parse_book_chapter_citation]
    rw [h]
    (try dsimp only)
    repeat' split
    all_goals first | exact ⟨rfl, rfl⟩ | simp_all
  · intro h
    simp only [parse_book_chapter_citation]
    rw [h]
    (try dsimp only)
    repeat' split
    all_goals first | exact ⟨rfl, rfl, rfl⟩ | simp_all
  · intro g1 g3 h
    simp only [parse_book_chapter_citation]
    rw [h]
    (try dsimp only)
    repeat' split
    all_goals first | rfl | simp_all
  · intro h
    simp only [parse_book_chapter_citation]
    rw [h]
    (try dsimp only)
    repeat' split
    all_goals first | rfl | simp_all
  · simp only [parse_book_chapter_citation]
    repeat' split
    all_goals first | exact ⟨rfl, rfl⟩ | simp_all

/-! ## Claims -/

/-- C1: for every citation string containing the literal sequence `". In "`,
`parse_apa_citation` selects the book chapter extractor
(`parse_book_chapter_citation`), regardless of any other cues present in
the string. -/
theorem claim_C1 (c : String) (h : containsList ". In ".data c.data = true) :
    selectedExtractor c = ExtractorTag.bookChapter ∧
      parse_apa_citation c = parse_book_chapter_citation c := by
  have hcue : chapterCue c = true := by
    obtain ⟨a, b, hab⟩ := containsList_exists h
    have hlit : ". In ".data = ['.', ' ', 'I', 'n', ' '] := rfl
    rw [hlit] at hab
    have hmatch : (dotInAt (['.', ' ', 'I', 'n', ' '] ++ b)).isSome = true := by
      simp +decide [dotInAt, List.takeWhile_cons, List.dropWhile_cons, isSpace]
    unfold chapterCue
    rw [hab, List.append_assoc]
    exact reSearch_isSome_of_suffix hmatch a
  exact ⟨by simp [selectedExtractor, hcue], by simp [parse_apa_citation, hcue]⟩

/-- C1 witness: a concrete citation containing `". In "`. -/
theorem claim_C1_witness :
    containsList ". In ".data
        "Smith, J. (2020). Chapter. In Big Book (pp. 100-110). Acme.".data = true ∧
      parse_apa_citation "Smith, J. (2020). Chapter. In Big Book (pp. 100-110). Acme." =
        parse_book_chapter_citation
          "Smith, J. (2020). Chapter. In Big Book (pp. 100-110). Acme." :=
  ⟨by decide, (claim_C1 _ (by decide)).2⟩

/-- C2 counterexample: this citation contains `(Ed.)` and does not contain
`". In "`, yet the classifier checks the journal cues before the editor
marker, the substring `5(2),` matches the first journal cue, and the journal
extractor is selected instead of the edited-book extractor. -/
theorem claim_C2_counterexample :
    containsList "(Ed.)".data "Lee, K. (Ed.). (2018). Title, 5(2), 100-110.".data = true ∧
      containsList ". In ".data "Lee, K. (Ed.). (2018). Title, 5(2), 100-110.".data = false ∧
      selectedExtractor "Lee, K. (Ed.). (2018). Title, 5(2), 100-110." = ExtractorTag.journal ∧
      selectedExtractor "Lee, K. (Ed.). (2018). Title, 5(2), 100-110." ≠ ExtractorTag.editedBook ∧
      parse_apa_citation "Lee, K. (Ed.). (2018). Title, 5(2), 100-110." ≠
        parse_edited_book_citation "Lee, K. (Ed.). (2018). Title, 5(2), 100-110." := by
  decide

/-- C2 (amended): for every citation string that contains `(Ed.)` or
`(Eds.)`, on which the chapter cue (a period, whitespace, `In`, whitespace)
finds no match, and on which none of the three journal cues finds a match,
`parse_apa_citation` selects the edited-book extractor
(`parse_edited_book_citation`). -/
theorem claim_C2 (c : String)
    (hed : containsList "(Ed.)".data c.data = true ∨ containsList "(Eds.)".data c.data = true)
    (hchap : chapterCue c = false) (hj1 : journalCue1 c = false)
    (hj2 : journalCue2 c = false) (hj3 : journalCue3 c = false) :
    selectedExtractor c = ExtractorTag.editedBook ∧
      parse_apa_citation c = parse_edited_book_citation c := by
  have hcue : edCue c = true := by
    cases hed with
    | inl h =>
      obtain ⟨a, b, hab⟩ := containsList_exists h
      have hlit : "(Ed.)".data = ['(', 'E', 'd', '.', ')'] := rfl
      rw [hlit] at hab
      have hmatch : (edCueAt (['(', 'E', 'd', '.', ')'] ++ b)).isSome = true := rfl
      unfold edCue
      rw [hab, List.append_assoc]
      exact reSearch_isSome_of_suffix hmatch a
    | inr h =>
      obtain ⟨a, b, hab⟩ := containsList_exists h
      have hlit : "(Eds.)".data = ['(', 'E', 'd', 's', '.', ')'] := rfl
      rw [hlit] at hab
      have hmatch : (edCueAt (['(', 'E', 'd', 's', '.', ')'] ++ b)).isSome = true := rfl
      unfold edCue
      rw [hab, List.append_assoc]
      exact reSearch_isSome_of_suffix hmatch a
  constructor
  · simp [selectedExtractor, hchap, hj1, hj2, hj3, hcue]
  · simp [parse_apa_citation, parse_book_citation, hchap, hj1, hj2, hj3, hcue]

/-- C2 witness: a concrete edited-book citation with no journal cue. -/
theorem claim_C2_witness :
    (containsList "(Ed.)".data "Lee, K. (Ed.). (2018). Edited Volume. Pub House.".data = true ∨
       containsList "(Eds.)".data "Lee, K. (Ed.). (2018). Edited Volume. Pub House.".data = true) ∧
      chapterCue "Lee, K. (Ed.). (2018). Edited Volume. Pub House." = false ∧
      journalCue1 "Lee, K. (Ed.). (2018). Edited Volume. Pub House." = false ∧
      journalCue2 "Lee, K. (Ed.). (2018). Edited Volume. Pub House." = false ∧
      journalCue3 "Lee, K. (Ed.). (2018). Edited Volume. Pub House." = false ∧
      parse_apa_citation "Lee, K. (Ed.). (2018). Edited Volume. Pub House." =
        parse_edited_book_citation "Lee, K. (Ed.). (2018). Edited Volume. Pub House." :=
  ⟨Or.inl (by decide), by decide, by decide, by decide, by decide,
   (claim_C2 _ (Or.inl (by decide)) (by decide) (by decide) (by decide) (by decide)).2⟩

/-- C3: `parse_apa_citation` is a total function — every input is handed to
one of the five extractors and yields a record — and the unstructured input
`"Just some unstructured text."` falls through to the standard-book
extractor, returning a record with empty authors and year (and empty title
and publisher), with no failure. -/
theorem claim_C3 :
    (∀ c : String,
        parse_apa_citation c = parse_book_chapter_citation c ∨
        parse_apa_citation c = parse_journal_citation c ∨
        parse_apa_citation c = parse_edited_book_citation c ∨
        parse_apa_citation c = parse_book_section_citation c ∨
        parse_apa_citation c = parse_standard_book_citation c) ∧
      parse_apa_citation "Just some unstructured text." =
        parse_standard_book_citation "Just some unstructured text." ∧
      (parse_apa_citation "Just some unstructured text.").get "authors" =
        some (.authorsV []) ∧
      (parse_apa_citation "Just some unstructured text.").get "year" = some (.s "") ∧
      (parse_apa_citation "Just some unstructured text.").get "title" = some (.s "") ∧
      (parse_apa_citation "Just some unstructured text.").get "publisher" = some (.s "") := by
  refine ⟨?_, by decide, by decide, by decide, by decide, by decide⟩
  intro c
  unfold parse_apa_citation parse_book_citation
  by_cases h1 : chapterCue c = true <;>
    by_cases h2 : (journalCue1 c || journalCue2 c || journalCue3 c) = true <;>
      by_cases h3 : edCue c = true <;>
        by_cases h4 : ppCue c = true <;>
          simp [h1, h2, h3, h4]

/-- C4 counterexample: a citation containing `". In "` is handled by the book
chapter extractor, whose record has no `issue` and no `journal_name` field at
all — refuting the claim that every field of the data model is present in
every returned record. -/
theorem claim_C4_counterexample :
    chapterCue "Doe, A. (2019). Chapter One. In Collected Works (pp. 1-9). Pub." = true ∧
      (parse_apa_citation
          "Doe, A. (2019). Chapter One. In Collected Works (pp. 1-9). Pub.").get "issue" =
        none ∧
      (parse_apa_citation
          "Doe, A. (2019). Chapter One. In Collected Works (pp. 1-9). Pub.").get
          "journal_name" = none := by
  decide

/-- C4 (amended): for every input string the returned record has a fixed key
set — `chapterKeys` for the book-chapter extractor (no `issue`, no
`journal_name`), the eleven `fullKeys` for every other extractor — so a
failed step never drops a field; and the default-empty-value guarantee
holds in every extractor: a failed author/year match leaves `authors` empty
and `year` `""`, a failed title/journal/DOI/book-info/publisher search
leaves its target fields `""`, an unmatched optional group (the
standard-book page group, the chapter volume group) leaves its field `""`,
and every field no pattern of the selected extractor targets stays `""`. -/
theorem claim_C4 (c : String) :
    ((parse_apa_citation c).keys =
      (if selectedExtractor c = ExtractorTag.bookChapter then chapterKeys else fullKeys)) ∧
    ((authorYearMatch c.data = none →
        (parse_journal_citation c).get "authors" = some (FieldVal.authorsV []) ∧
        (parse_journal_citation c).get "year" = some (FieldVal.s "")) ∧
      (reSearch titleAt c.data = none →
        (parse_journal_citation c).get "title" = some (FieldVal.s "")) ∧
      (reSearch stdJournalAt c.data = none → reSearch volJournalAt c.data = none →
        reSearch noVolJournalAt c.data = none →
        (parse_journal_citation c).get "journal_name" = some (FieldVal.s "") ∧
        (parse_journal_citation c).get "volume" = some (FieldVal.s "") ∧
        (parse_journal_citation c).get "issue" = some (FieldVal.s "") ∧
        (parse_journal_citation c).get "page_range" = some (FieldVal.s "")) ∧
      (reSearch doiAt c.data = none →
        (parse_journal_citation c).get "doi" = some (FieldVal.s "") ∧
        (parse_journal_citation c).get "url" = some (FieldVal.s "")) ∧
      (parse_journal_citation c).get "publisher" = some (FieldVal.s "")) ∧
    ((authorYearMatch c.data = none →
        (parse_standard_book_citation c).get "authors" = some (FieldVal.authorsV []) ∧
        (parse_standard_book_citation c).get "year" = some (FieldVal.s "")) ∧
      (reSearch sbAt c.data = none →
        (parse_standard_book_citation c).get "title" = some (FieldVal.s "") ∧
        (parse_standard_book_citation c).get "publisher" = some (FieldVal.s "") ∧
        (parse_standard_book_citation c).get "page_range" = some (FieldVal.s "")) ∧
      (∀ t p : List Char, reSearch sbAt c.data = some (t, p, none) →
        (parse_standard_book_citation c).get "page_range" = some (FieldVal.s "")) ∧
      ((parse_standard_book_citation c).get "volume" = some (FieldVal.s "") ∧
        (parse_standard_book_citation c).get "issue" = some (FieldVal.s "") ∧
        (parse_standard_book_citation c).get "journal_name" = some (FieldVal.s "") ∧
        (parse_standard_book_citation c).get "url" = some (FieldVal.s "") ∧
        (parse_standard_book_citation c).get "doi" = some (FieldVal.s ""))) ∧
    ((edAuthorYearMatch c.data = none →
        (parse_edited_book_citation c).get "authors" = some (FieldVal.authorsV []) ∧
        (parse_edited_book_citation c).get "year" = some (FieldVal.s "")) ∧
      (reSearch volAt (editedRemaining c ((editedStep1 c).getS "year")) = none →
        (parse_edited_book_citation c).get "volume" = some (FieldVal.s "")) ∧
      ((parse_edited_book_citation c).get "issue" = some (FieldVal.s "") ∧
        (parse_edited_book_citation c).get "page_range" = some (FieldVal.s "") ∧
        (parse_edited_book_citation c).get "journal_name" = some (FieldVal.s "") ∧
        (parse_edited_book_citation c).get "url" = some (FieldVal.s "") ∧
        (parse_edited_book_citation c).get "doi" = some (FieldVal.s ""))) ∧
    ((authorYearMatch c.data = none →
        (parse_book_section_citation c).get "authors" = some (FieldVal.authorsV []) ∧
        (parse_book_section_citation c).get "year" = some (FieldVal.s "")) ∧
      ((splitCap ppSepAt (sectionRemaining c)).length ≠ 2 →
        (splitCap ppSepAt (sectionRemaining c)).length ≠ 3 →
        (parse_book_section_citation c).get "title" = some (FieldVal.s "") ∧
        (parse_book_section_citation c).get "page_range" = some (FieldVal.s "") ∧
        (parse_book_section_citation c).get "publisher" = some (FieldVal.s "")) ∧
      ((parse_book_section_citation c).get "volume" = some (FieldVal.s "") ∧
        (parse_book_section_citation c).get "issue" = some (FieldVal.s "") ∧
        (parse_book_section_citation c).get "journal_name" = some (FieldVal.s "") ∧
        (parse_book_section_citation c).get "url" = some (FieldVal.s "") ∧
        (parse_book_section_citation c).get "doi" = some (FieldVal.s ""))) ∧
    ((authorYearMatch c.data = none →
        (parse_book_chapter_citation c).get "authors" = some (FieldVal.authorsV []) ∧
        (parse_book_chapter_citation c).get "year" = some (FieldVal.s "")) ∧
      (reSearch chapAt c.data = none →
        (parse_book_chapter_citation c).get "title" = some (FieldVal.s "") ∧
        (parse_book_chapter_citation c).get "volume" = some (FieldVal.s "") ∧
        (parse_book_chapter_citation c).get "page_range" = some (FieldVal.s "")) ∧
      (∀ g1 g3 : List Char, reSearch chapAt c.data = some (g1, none, g3) →
        (parse_book_chapter_citation c).get "volume" = some (FieldVal.s "")) ∧
      (reSearch chapPubAt c.data = none →
        (parse_book_chapter_citation c).get "publisher" = some (FieldVal.s "")) ∧
      ((parse_book_chapter_citation c).get "url" = some (FieldVal.s "") ∧
        (parse_book_chapter_citation c).get "doi" = some (FieldVal.s ""))) := by
  refine ⟨?_, pjc_defaults c, psbc_defaults c, pebc_defaults c, psec_defaults c,
    pchc_defaults c⟩
  unfold parse_apa_citation parse_book_citation selectedExtractor
  by_cases h1 : chapterCue c = true <;>
    by_cases h2 : (journalCue1 c || journalCue2 c || journalCue3 c) = true <;>
      by_cases h3 : edCue c = true <;>
        by_cases h4 : ppCue c = true <;>
          simp [h1, h2, h3, h4, parse_journal_citation_keys,
            parse_standard_book_citation_keys, parse_edited_book_citation_keys,
            parse_book_section_citation_keys, parse_book_chapter_citation_keys]

/-- Witness for C4: concrete inputs exercising every conditional guarantee —
`"xyz"` (no step matches in any extractor), a standard-book citation whose
optional page group is unmatched, and a chapter citation whose optional
volume group is unmatched. -/
theorem claim_C4_witness :
    (parse_apa_citation "xyz").keys = fullKeys ∧
    (parse_journal_citation "xyz").get "authors" = some (FieldVal.authorsV []) ∧
    (parse_journal_citation "xyz").get "year" = some (FieldVal.s "") ∧
    (parse_journal_citation "xyz").get "title" = some (FieldVal.s "") ∧
    (parse_journal_citation "xyz").get "journal_name" = some (FieldVal.s "") ∧
    (parse_journal_citation "xyz").get "doi" = some (FieldVal.s "") ∧
    (parse_standard_book_citation "xyz").get "title" = some (FieldVal.s "") ∧
    (parse_standard_book_citation
        "Doe, A. (2020). Title. Publisher.").get "page_range" = some (FieldVal.s "") ∧
    (parse_edited_book_citation "xyz").get "volume" = some (FieldVal.s "") ∧
    (parse_book_section_citation "xyz").get "title" = some (FieldVal.s "") ∧
    (parse_book_chapter_citation "xyz").get "title" = some (FieldVal.s "") ∧
    (parse_book_chapter_citation
        "Doe, A. (2019). Ch. In Works (pp. 1-9). Pub.").get "volume" =
      some (FieldVal.s "") ∧
    (parse_book_chapter_citation "xyz").get "publisher" = some (FieldVal.s "") := by
  obtain ⟨hA, hJ, hS, hE, hSec, hCh⟩ := claim_C4 "xyz"
  obtain ⟨-, -, hS2, -, -, -⟩ := claim_C4 "Doe, A. (2020). Title. Publisher."
  obtain ⟨-, -, -, -, -, hCh2⟩ := claim_C4 "Doe, A. (2019). Ch. In Works (pp. 1-9). Pub."
  rw [if_neg (by decide)] at hA
  refine ⟨hA, ?_, ?_, ?_, ?_, ?_, ?_, ?_, ?_, ?_, ?_, ?_, ?_⟩
  · exact (hJ.1 (by decide)).1
  · exact (hJ.1 (by decide)).2
  · exact hJ.2.1 (by decide)
  · exact (hJ.2.2.1 (by decide) (by decide) (by decide)).1
  · exact (hJ.2.2.2.1 (by decide)).1
  · exact (hS.2.1 (by decide)).1
  · exact hS2.2.2.1 "Title".data "Publisher".data (by decide)
  · exact hE.2.1 (by decide)
  · exact (hSec.2.1 (by decide) (by decide)).1
  · exact (hCh.2.1 (by decide)).1
  · exact hCh2.2.2.1 "Works (".data "1-9".data (by decide)
  · exact hCh.2.2.2.1 (by decide)

/-- C6: the scenario-1 journal citation parses to exactly the expected
record: journal source type, author Smith, J., year 2020, the expected
title, journal name, volume 5, issue 2 and page range 100-110. -/
theorem claim_C6 :
    parse_apa_citation
        "Smith, J. (2020). The study of things. Journal of Examples, 5(2), 100-110." =
      [("source_type", .s "journal"),
       ("authors", .authorsV [{ last_name := "Smith", first_name := "J." }]),
       ("title", .s "The study of things"), ("year", .s "2020"), ("publisher", .s ""),
       ("volume", .s "5"), ("issue", .s "2"), ("page_range", .s "100-110"),
       ("journal_name", .s "Journal of Examples"), ("url", .s ""), ("doi", .s "")] := by
  rfl

/-- C7 counterexample: the book-chapter extractor's record does contain the
`source_type` field (with value `"book"`), refuting the claim that this
variant's record shape omits `source_type`. -/
theorem claim_C7_counterexample :
    (parse_book_chapter_citation "x").get "source_type" = some (.s "book") ∧
      (parse_book_chapter_citation "x").get "source_type" ≠ none := by
  decide

/-- C7 (amended): for every input, the book-chapter extractor's record
contains `source_type` (always `"book"`), omits exactly the `issue` and
`journal_name` fields, and otherwise matches the other variants' fields. -/
theorem claim_C7 (c : String) :
    (parse_book_chapter_citation c).keys = chapterKeys ∧
      (parse_book_chapter_citation c).get "source_type" = some (.s "book") ∧
      chapterKeys = fullKeys.filter (fun k => k != "issue" && k != "journal_name") := by
  refine ⟨parse_book_chapter_citation_keys c, ?_, by decide⟩
  simp only [parse_book_chapter_citation]
  repeat' split
  all_goals rfl

/-- C9: the classifier's journal cues accept the en-dash (the third cue
matches a `<words>, <digits>–<digits>` shape), so the en-dash variant of the
scenario-1 citation is still routed to the journal extractor; but the
extractor's own page pattern accepts only the ASCII hyphen, so the returned
page range holds only the start page `"100"`. -/
theorem claim_C9 :
    journalCue3 "Journal of Examples, 100–110" = true ∧
      selectedExtractor
          "Smith, J. (2020). The study of things. Journal of Examples, 5(2), 100–110." =
        ExtractorTag.journal ∧
      (parse_apa_citation
          "Smith, J. (2020). The study of things. Journal of Examples, 5(2), 100–110.").get
          "page_range" = some (.s "100") ∧
      (parse_apa_citation
          "Smith, J. (2020). The study of things. Journal of Examples, 5(2), 100–110.").get
          "volume" = some (.s "5") ∧
      (parse_apa_citation
          "Smith, J. (2020). The study of things. Journal of Examples, 5(2), 100–110.").get
          "issue" = some (.s "2") := by
  decide

/-! ## Character-class soundness of the author sub-parser (for C8) -/

theorem initTailF_fst_sound : ∀ (fuel : Nat) (l : List Char),
    ∀ ch ∈ (initTailF fuel l).1, (isUpperAZ ch || ch = '.' || isSpace ch) = true := by
  intro fuel
  induction fuel with
  | zero => intro l ch h; simp [initTailF] at h
  | succ fuel ih =>
    intro l ch
    simp only [initTailF]
    split
    · rename_i r
      split
      · rename_i c r' hdw
        by_cases hu : isUpperAZ c = true
        · simp only [hu, if_true]
          intro h
          simp only [List.mem_cons, List.mem_append] at h
          rcases h with h | h | h | h
          · subst h; decide
          · have := List.mem_takeWhile_imp h
            simp [this]
          · subst h; simp [hu]
          · exact ih r' ch h
        · simp [hu]
      · simp
    · simp

theorem lastNameAt_sound {l run rest : List Char}
    (h : lastNameAt l = some (run, rest)) :
    ∀ ch ∈ run, (isWordDash ch || isSpace ch) = true := by
  match l with
  | [] => simp [lastNameAt] at h
  | c0 :: cs =>
    unfold lastNameAt at h
    by_cases h0 : isWordDash c0 = true
    · simp only [h0, if_true] at h
      split at h
      · split at h
        · simp only [Option.some.injEq, Prod.mk.injEq] at h
          intro ch hch
          rw [← h.1] at hch
          have := List.mem_takeWhile_imp hch
          simpa using this
        · simp at h
      · simp at h
    · simp [h0] at h

theorem initialsAt_sound {l cap rest : List Char}
    (h : initialsAt l = some (cap, rest)) :
    ∀ ch ∈ cap, (isUpperAZ ch || ch = '.' || isSpace ch) = true := by
  match l with
  | [] => simp [initialsAt] at h
  | c :: r =>
    unfold initialsAt at h
    by_cases hu : isUpperAZ c = true
    · simp only [hu, if_true] at h
      split at h
      · rename_i r6 hp2
        simp only [Option.some.injEq, Prod.mk.injEq] at h
        intro ch hch
        rw [← h.1] at hch
        simp only [List.mem_cons, List.mem_append] at hch
        rcases hch with hch | hch | hch | hch
        · subst hch; simp [hu]
        · exact initTailF_fst_sound _ _ ch hch
        · subst hch; decide
        · simp at hch
      · simp only [Option.some.injEq, Prod.mk.injEq] at h
        intro ch hch
        rw [← h.1] at hch
        rcases List.mem_cons.mp hch with hch | hch
        · subst hch; simp [hu]
        · exact initTailF_fst_sound _ _ ch hch
    · simp [hu] at h

theorem tryAuthorAt_sound {l : List Char} {caps : List Char × List Char}
    {rest : List Char} (h : tryAuthorAt l = some (caps, rest)) :
    (∀ ch ∈ caps.1, (isWordDash ch || isSpace ch) = true) ∧
      (∀ ch ∈ caps.2, (isUpperAZ ch || ch = '.' || isSpace ch) = true) := by
  unfold tryAuthorAt at h
  split at h
  · rename_i run r2 hln
    split at h
    · rename_i ini r5 hini
      simp only [Option.some.injEq, Prod.mk.injEq] at h
      obtain ⟨h12, _⟩ := h
      rw [← h12]
      exact ⟨lastNameAt_sound hln, initialsAt_sound hini⟩
    · simp at h
  · simp at h

theorem findAuthorsF_sound : ∀ (fuel : Nat) (l : List Char),
    ∀ p ∈ findAuthorsF fuel l,
      (∀ ch ∈ p.1, (isWordDash ch || isSpace ch) = true) ∧
        (∀ ch ∈ p.2, (isUpperAZ ch || ch = '.' || isSpace ch) = true) := by
  intro fuel
  induction fuel with
  | zero => intro l p hp; simp [findAuthorsF] at hp
  | succ fuel ih =>
    intro l p hp
    match l with
    | [] => simp [findAuthorsF] at hp
    | c :: cs =>
      simp only [findAuthorsF] at hp
      split at hp
      · rename_i caps rest htry
        rcases List.mem_cons.mp hp with hp | hp
        · subst hp; exact tryAuthorAt_sound htry
        · exact ih rest p hp
      · exact ih cs p hp

theorem mem_pyStrip {l : List Char} {ch : Char} (h : ch ∈ pyStrip l) : ch ∈ l := by
  unfold pyStrip at h
  rw [List.mem_reverse] at h
  have h2 := ((l.dropWhile isSpace).reverse.dropWhile_sublist isSpace).mem h
  rw [List.mem_reverse] at h2
  exact (l.dropWhile_sublist isSpace).mem h2

/-- C8 (amended): every author returned by `parse_authors` comes from a
match of the author shape: its last name consists only of word, hyphen and
whitespace characters and its initials only of uppercase letters, periods
and whitespace.  Hence connective text made of other characters (such as
`&` or stray punctuation) is never included in any field — though word
tokens such as `and` directly preceding an author entry are absorbed into
its last name rather than skipped. -/
theorem claim_C8 (s : String) (a : Author) (h : a ∈ parse_authors s) :
    a.last_name.data.all (fun ch => isWordDash ch || isSpace ch) = true ∧
      a.first_name.data.all (fun ch => isUpperAZ ch || ch = '.' || isSpace ch) = true := by
  unfold parse_authors at h
  simp only [List.mem_map] at h
  obtain ⟨p, hp, heq⟩ := h
  have hsound := findAuthorsF_sound _ _ p hp
  rw [← heq]
  constructor <;> rw [List.all_eq_true] <;> intro ch hch
  · exact hsound.1 ch (mem_pyStrip hch)
  · exact hsound.2 ch (mem_pyStrip hch)

/-- C8 witness: the concrete author list text `"Smith, J."`. -/
theorem claim_C8_witness :
    (⟨"Smith", "J."⟩ : Author) ∈ parse_authors "Smith, J." ∧
      ("Smith" : String).data.all (fun ch => isWordDash ch || isSpace ch) = true ∧
      ("J." : String).data.all (fun ch => isUpperAZ ch || ch = '.' || isSpace ch) = true :=
  ⟨by decide, claim_C8 "Smith, J." ⟨"Smith", "J."⟩ (by decide)⟩

/-- C8 counterexample: on `"Smith, J. and Jones, K."` the connective word
`"and"` is not skipped — it is absorbed into the second author's last name,
refuting the claim that non-matching text such as `"and"` is never included
in any returned `last_name`. -/
theorem claim_C8_counterexample :
    parse_authors "Smith, J. and Jones, K." =
      [{ last_name := "Smith", first_name := "J." },
       { last_name := "and Jones", first_name := "K." }] ∧
      containsList "and".data "and Jones".data = true := by
  decide

theorem splitByAux_of_reSearch_none {m : List Char → Option Nat} :
    ∀ (fuel : Nat) (acc l : List Char), reSearch m l = none →
      splitByAux m fuel acc l = [acc.reverse ++ l] := by
  intro fuel
  induction fuel with
  | zero => intro acc l h; simp [splitByAux]
  | succ fuel ih =>
    intro acc l h
    match l with
    | [] => simp [splitByAux]
    | c :: cs =>
      have hm : m (c :: cs) = none := by
        simp only [reSearch] at h
        cases hmc : m (c :: cs) with
        | some r => rw [hmc] at h; simp at h
        | none => rfl
      have hrest : reSearch m cs = none := by
        simp only [reSearch, hm] at h
        exact h
      simp only [splitByAux, hm]
      rw [ih (c :: acc) cs hrest]
      simp

/-- C10: in the edited-book extractor, when the remaining text after the
year split contains a `(Vol. N)` marker but the title/publisher separator
pattern `(Vol. N).` — which requires a literal period right after the
closing parenthesis — matches nowhere in it, the volume is set to `N` while
title and publisher are both left as the empty string. -/
theorem claim_C10 (c : String) (N : List Char)
    (hvol : reSearch volAt (editedRemaining c ((editedStep1 c).getS "year")) = some N)
    (hsep : reSearch volSepAt (editedRemaining c ((editedStep1 c).getS "year")) = none) :
    (parse_edited_book_citation c).get "volume" = some (.s (mkS N)) ∧
      (parse_edited_book_citation c).get "title" = some (.s "") ∧
      (parse_edited_book_citation c).get "publisher" = some (.s "") := by
  have hstep_t : (editedStep1 c).get "title" = some (.s "") := by
    unfold editedStep1
    repeat' split
    all_goals rfl
  have hstep_p : (editedStep1 c).get "publisher" = some (.s "") := by
    unfold editedStep1
    repeat' split
    all_goals rfl
  have hsplit : splitBy volSepAt (editedRemaining c ((editedStep1 c).getS "year")) =
      [editedRemaining c ((editedStep1 c).getS "year")] := by
    unfold splitBy
    rw [splitByAux_of_reSearch_none _ _ _ hsep]
    simp
  have hv_t : ((editedStep1 c).set "volume" (.s (mkS N))).get "title" = some (.s "") := by
    rw [Rec.get_set_ne _ (by decide), hstep_t]
  have hv_p : ((editedStep1 c).set "volume" (.s (mkS N))).get "publisher" = some (.s "") := by
    rw [Rec.get_set_ne _ (by decide), hstep_p]
  have hgS_t : ((editedStep1 c).set "volume" (.s (mkS N))).getS "title" = "" := by
    unfold Rec.getS
    rw [hv_t]
  simp only [parse_edited_book_citation]
  rw [hvol, hsplit]
  have he : mkS (pyRstrip ['.'] []) = "" := rfl
  simp only [hgS_t, he]
  have hts_p : (((editedStep1 c).set "volume" (.s (mkS N))).set "title" (.s "")).getS
      "publisher" = "" := by
    unfold Rec.getS
    rw [Rec.get_set_ne _ (by decide), hv_p]
  simp only [hts_p]
  have hempty : ("" : String).data = [] := rfl
  simp only [hempty, he]
  have h3p : ((((editedStep1 c).set "volume" (.s (mkS N))).set "title" (.s "")).set
      "publisher" (.s "")).getS "publisher" = "" := by
    unfold Rec.getS
    rw [Rec.get_set_self]
  have h3t : ((((editedStep1 c).set "volume" (.s (mkS N))).set "title" (.s "")).set
      "publisher" (.s "")).getS "title" = "" := by
    unfold Rec.getS
    rw [Rec.get_set_ne _ (by decide), Rec.get_set_self]
  simp only [h3p, h3t, hempty]
  rw [if_neg (by decide)]
  refine ⟨?_, ?_, ?_⟩
  · rw [Rec.get_set_ne _ (by decide), Rec.get_set_ne _ (by decide), Rec.get_set_self]
  · rw [Rec.get_set_ne _ (by decide), Rec.get_set_self]
  · rw [Rec.get_set_self]


/-- C10 witness: `"(Vol. 2), Big Publisher."` follows the marker with a
comma, so the separator never matches. -/
theorem claim_C10_witness :
    reSearch volAt (editedRemaining "Lee, K. (Ed.). (2018). (Vol. 2), Big Publisher."
        ((editedStep1 "Lee, K. (Ed.). (2018). (Vol. 2), Big Publisher.").getS "year")) =
      some ['2'] ∧
      reSearch volSepAt (editedRemaining "Lee, K. (Ed.). (2018). (Vol. 2), Big Publisher."
        ((editedStep1 "Lee, K. (Ed.). (2018). (Vol. 2), Big Publisher.").getS "year")) =
        none ∧
      (parse_edited_book_citation "Lee, K. (Ed.). (2018). (Vol. 2), Big Publisher.").get
          "volume" = some (.s "2") ∧
      (parse_edited_book_citation "Lee, K. (Ed.). (2018). (Vol. 2), Big Publisher.").get
          "title" = some (.s "") ∧
      (parse_edited_book_citation "Lee, K. (Ed.). (2018). (Vol. 2), Big Publisher.").get
          "publisher" = some (.s "") := by
  refine ⟨by decide, by decide, ?_⟩
  have h := claim_C10 "Lee, K. (Ed.). (2018). (Vol. 2), Big Publisher." ['2']
    (by decide) (by decide)
  exact ⟨h.1, h.2.1, h.2.2⟩

/-! ## DOI extraction (for C5) -/

theorem takeWhile_append_of_all {p : Char → Bool} {xs : List Char}
    (h : xs.all p = true) (ys : List Char) :
    (xs ++ ys).takeWhile p = xs ++ ys.takeWhile p := by
  induction xs with
  | nil => simp
  | cons x xs ih =>
    simp only [List.all_cons, Bool.and_eq_true] at h
    simp [List.takeWhile_cons, h.1, ih h.2]

theorem takeWhile_eq_nil_of_head {p : Char → Bool} {b : List Char}
    (hb : ∀ x, b.head? = some x → p x = false) : b.takeWhile p = [] := by
  cases b with
  | nil => rfl
  | cons x xs => simp [List.takeWhile_cons, hb x rfl]

theorem isDoiChar_of_isDigitC {ch : Char} (h : isDigitC ch = true) :
    isDoiChar ch = true := by
  simp only [isDigitC] at h
  simp [isDoiChar, isWordChar, Char.isAlphanum, h]

theorem isPrefixOf_of_append {p q l : List Char}
    (h : (p ++ q).isPrefixOf l = true) : p.isPrefixOf l = true := by
  induction p generalizing l with
  | nil => simp [List.isPrefixOf]
  | cons x xs ih =>
    match l with
    | [] => simp [List.isPrefixOf] at h
    | c :: cs =>
      simp only [List.cons_append, List.isPrefixOf, Bool.and_eq_true] at h ⊢
      exact ⟨h.1, ih h.2⟩

theorem doiAt_none_of_not_http {l : List Char}
    (h : ("http".data).isPrefixOf l = false) : doiAt l = none := by
  unfold doiAt
  rw [if_neg, if_neg]
  · intro hc
    have : ("http".data).isPrefixOf l = true := by
      have h16 : "https://doi.org/".data = "http".data ++ "s://doi.org/".data := rfl
      exact isPrefixOf_of_append (h16 ▸ hc)
    rw [this] at h
    exact absurd h (by simp)
  · intro hc
    have : ("http".data).isPrefixOf l = true := by
      have h15 : "http://doi.org/".data = "http".data ++ "://doi.org/".data := rfl
      exact isPrefixOf_of_append (h15 ▸ hc)
    rw [this] at h
    exact absurd h (by simp)

theorem not_http_prefix_pad : ∀ (u v : List Char), u ≠ [] →
    ("http".data).isPrefixOf u = false →
    ("http".data).isPrefixOf (u ++ 'h' :: 't' :: 't' :: 'p' :: v) = false := by
  intro u v hne hu
  match u with
  | [] => exact absurd rfl hne
  | [x] => simp +decide [List.isPrefixOf]
  | [x, y] => simp +decide [List.isPrefixOf]
  | [x, y, z] => simp +decide [List.isPrefixOf]
  | x :: y :: z :: w :: us =>
    simp only [List.cons_append, List.isPrefixOf] at hu ⊢
    simpa using hu

theorem reSearch_doiAt_skip : ∀ (a rest : List Char),
    containsList "http".data a = false →
    reSearch doiAt (a ++ 'h' :: 't' :: 't' :: 'p' :: rest) =
      reSearch doiAt ('h' :: 't' :: 't' :: 'p' :: rest) := by
  intro a
  induction a with
  | nil => intro rest _; rfl
  | cons c a' ih =>
    intro rest h
    simp only [containsList, Bool.or_eq_false_iff] at h
    have hp : ("http".data).isPrefixOf ((c :: a') ++ 'h' :: 't' :: 't' :: 'p' :: rest) = false :=
      not_http_prefix_pad (c :: a') rest (by simp) h.1
    have hnone : doiAt ((c :: a') ++ 'h' :: 't' :: 't' :: 'p' :: rest) = none :=
      doiAt_none_of_not_http hp
    simp only [List.cons_append] at hnone ⊢
    simp only [reSearch, hnone]
    exact ih rest h.2

theorem doiAt_occurrence (ds ws b : List Char)
    (hds : ds.all isDigitC = true) (hlen4 : 4 ≤ ds.length)
    (hws : ws.all isDoiChar = true) (hlen5 : 5 ≤ ds.length + ws.length)
    (hb : ∀ x, b.head? = some x → isDoiChar x = false) :
    doiAt ("https://doi.org/".data ++ ('1' :: '0' :: '.' :: (ds ++ ws)) ++ b) =
      some ('1' :: '0' :: '.' :: (ds ++ ws)) := by
  have hdsd : ds.all isDoiChar = true := by
    rw [List.all_eq_true] at hds ⊢
    exact fun x hx => isDoiChar_of_isDigitC (hds x hx)
  have hassoc : "https://doi.org/".data ++ ('1' :: '0' :: '.' :: (ds ++ ws)) ++ b =
      "https://doi.org/".data ++ ('1' :: '0' :: '.' :: (ds ++ (ws ++ b))) := by
    simp [List.append_assoc]
  rw [hassoc]
  have c1 : ("http://doi.org/".data).isPrefixOf
      ("https://doi.org/".data ++ ('1' :: '0' :: '.' :: (ds ++ (ws ++ b)))) = false := rfl
  have c2 : ("https://doi.org/".data).isPrefixOf
      ("https://doi.org/".data ++ ('1' :: '0' :: '.' :: (ds ++ (ws ++ b)))) = true := by
    induction ("https://doi.org/".data) with
    | nil => rfl
    | cons c cs ih => simp [List.isPrefixOf, ih]
  unfold doiAt
  rw [if_neg (by rw [c1]; simp), if_pos c2]
  have hdrop : ("https://doi.org/".data ++ ('1' :: '0' :: '.' :: (ds ++ (ws ++ b)))).drop 16 =
      '1' :: '0' :: '.' :: (ds ++ (ws ++ b)) := rfl
  rw [hdrop]
  simp only [doiTail]
  have hrun : (ds ++ (ws ++ b)).takeWhile isDoiChar = ds ++ ws := by
    rw [takeWhile_append_of_all hdsd, takeWhile_append_of_all hws,
      takeWhile_eq_nil_of_head hb, List.append_nil]
  have hdig : (ds ++ (ws ++ b)).takeWhile isDigitC = ds ++ (ws ++ b).takeWhile isDigitC :=
    takeWhile_append_of_all hds _
  rw [if_pos]
  · rw [hrun]
  · rw [hrun, hdig]
    simp only [Bool.and_eq_true, decide_eq_true_eq, List.length_append]
    omega

theorem reSearch_of_match_here {α : Type} {m : List Char → Option α} {l : List Char} {r : α}
    (h : m l = some r) : reSearch m l = some r := by
  cases l with
  | nil => simpa [reSearch] using h
  | cons c cs => simp [reSearch, h]

theorem doi_step_get (r : Rec) (d : List Char) :
    ((r.set "doi" (.s (mkS d))).set "url"
        (.s ("https://doi.org/" ++ (r.set "doi" (.s (mkS d))).getS "doi"))).get "doi" =
      some (.s (mkS d)) ∧
    ((r.set "doi" (.s (mkS d))).set "url"
        (.s ("https://doi.org/" ++ (r.set "doi" (.s (mkS d))).getS "doi"))).get "url" =
      some (.s ("https://doi.org/" ++ mkS d)) := by
  have hg : (r.set "doi" (.s (mkS d))).getS "doi" = mkS d := by
    unfold Rec.getS
    rw [Rec.get_set_self]
  constructor
  · rw [Rec.get_set_ne _ (by decide), Rec.get_set_self]
  · rw [Rec.get_set_self, hg]

/-- C5 (amended): for a DOI of the shape `10.<ds><ws>` with `ds` at least
four digits, `ws` word/period/hyphen/slash characters and at least five
characters after `10.` in total, any citation of the form
`a ++ "https://doi.org/" ++ DOI ++ b` — where `a` contains no earlier
occurrence of `"http"`, `b` does not begin with a word/digit/period/hyphen/
slash character, and the classifier selects the journal extractor — yields
`doi = DOI` and `url = "https://doi.org/" ++ DOI`. -/
theorem claim_C5 (a ds ws b : List Char) (c : String)
    (hc : c.data = a ++ "https://doi.org/".data ++ ('1' :: '0' :: '.' :: (ds ++ ws)) ++ b)
    (hhttp : containsList "http".data a = false)
    (hds : ds.all isDigitC = true) (hlen4 : 4 ≤ ds.length)
    (hws : ws.all isDoiChar = true) (hlen5 : 5 ≤ ds.length + ws.length)
    (hb : ∀ x, b.head? = some x → isDoiChar x = false)
    (hchap : chapterCue c = false)
    (hcues : (journalCue1 c || journalCue2 c || journalCue3 c) = true) :
    (parse_apa_citation c).get "doi" = some (.s (mkS ('1' :: '0' :: '.' :: (ds ++ ws)))) ∧
      (parse_apa_citation c).get "url" =
        some (.s ("https://doi.org/" ++ mkS ('1' :: '0' :: '.' :: (ds ++ ws)))) := by
  have hsearch : reSearch doiAt c.data = some ('1' :: '0' :: '.' :: (ds ++ ws)) := by
    rw [hc]
    have hsplit : a ++ "https://doi.org/".data ++ ('1' :: '0' :: '.' :: (ds ++ ws)) ++ b =
        a ++ ('h' :: 't' :: 't' :: 'p' ::
          ("s://doi.org/".data ++ (('1' :: '0' :: '.' :: (ds ++ ws)) ++ b))) := by
      simp [List.append_assoc]
    rw [hsplit, reSearch_doiAt_skip a _ hhttp]
    have hocc := doiAt_occurrence ds ws b hds hlen4 hws hlen5 hb
    exact reSearch_of_match_here hocc
  have hpa : parse_apa_citation c = parse_journal_citation c := by
    simp [parse_apa_citation, hchap, hcues]
  rw [hpa]
  simp only [parse_journal_citation]
  rw [hsearch]
  exact doi_step_get _ _

/-- C5 witness: a journal citation ending in a well-delimited DOI. -/
theorem claim_C5_witness :
    ("Smith, J. (2020). The study of things. Journal of Examples, 5(2), 100-110. https://doi.org/10.1234/abcd.5678" : String).data =
        "Smith, J. (2020). The study of things. Journal of Examples, 5(2), 100-110. ".data ++
          "https://doi.org/".data ++
          ('1' :: '0' :: '.' :: (['1', '2', '3', '4'] ++ "/abcd.5678".data)) ++ [] ∧
      containsList "http".data
          "Smith, J. (2020). The study of things. Journal of Examples, 5(2), 100-110. ".data =
        false ∧
      (parse_apa_citation
          "Smith, J. (2020). The study of things. Journal of Examples, 5(2), 100-110. https://doi.org/10.1234/abcd.5678").get
          "doi" = some (.s "10.1234/abcd.5678") ∧
      (parse_apa_citation
          "Smith, J. (2020). The study of things. Journal of Examples, 5(2), 100-110. https://doi.org/10.1234/abcd.5678").get
          "url" = some (.s "https://doi.org/10.1234/abcd.5678") := by
  refine ⟨by decide, by decide, ?_, ?_⟩ <;>
    have h := claim_C5
      "Smith, J. (2020). The study of things. Journal of Examples, 5(2), 100-110. ".data
      ['1', '2', '3', '4'] "/abcd.5678".data []
      "Smith, J. (2020). The study of things. Journal of Examples, 5(2), 100-110. https://doi.org/10.1234/abcd.5678"
      (by decide) (by decide) (by decide) (by decide) (by decide) (by decide)
      (by intro x hx; simp at hx) (by decide) (by decide)
  · exact h.1
  · exact h.2

/-- C5 counterexample: the claim fails as stated — here the citation
contains `"https://doi.org/" ++ D` for `D = "10.1234/abcd.5678"`, but the
sentence period right after the DOI is itself a DOI-tail character, so the
greedy pattern captures `"10.1234/abcd.5678."` (with the period) instead of
`D`. -/
theorem claim_C5_counterexample :
    containsList ("https://doi.org/10.1234/abcd.5678").data
        "Smith, J. (2020). The study of things. Journal of Examples, 5(2), 100-110. https://doi.org/10.1234/abcd.5678.".data =
      true ∧
      (parse_apa_citation
          "Smith, J. (2020). The study of things. Journal of Examples, 5(2), 100-110. https://doi.org/10.1234/abcd.5678.").get
          "doi" = some (.s "10.1234/abcd.5678.") ∧
      (parse_apa_citation
          "Smith, J. (2020). The study of things. Journal of Examples, 5(2), 100-110. https://doi.org/10.1234/abcd.5678.").get
          "doi" ≠ some (.s "10.1234/abcd.5678") := by
  refine ⟨by decide, by decide, by decide⟩
